import Mathlib

/-!
Verification of the core of a language-server for Drupal projects
(entity index, tier classification, cache manager, reference extraction,
validation and completion ranking).

The TypeScript sources are shallowly embedded: strings are Lean `String`
over their character lists (the project's identifiers and patterns are
ASCII, so JavaScript UTF-16 code-unit semantics and Lean `Char` lists
agree on all inputs considered here); JavaScript `number` values used as
integers are embedded as `Int`/`Nat`; `Infinity` used as a TTL is embedded
as `none : Option Int`; regular expressions are embedded as deterministic
scanners, one per call-site shape, equivalent to the specific patterns in
the source (the alternations occurring there are mutually exclusive, so
ordered trial of the alternatives is equivalent to the engine's
backtracking).
-/

namespace DrupalLsp

/-! ## JavaScript string primitives -/

/-- `hay.startsWith(pat)` on character lists. -/
def jsStartsWithL : List Char → List Char → Bool
  | _, [] => true
  | [], _ :: _ => false
  | c :: cs, p :: ps => c = p && jsStartsWithL cs ps

/-- `hay.includes(pat)` on character lists. -/
def jsIncludesL : List Char → List Char → Bool
  | [], pat => jsStartsWithL [] pat
  | c :: cs, pat => jsStartsWithL (c :: cs) pat || jsIncludesL cs pat

/-- `hay.indexOf(pat)`: index of the first occurrence, `-1` if absent. -/
def jsIndexOf : List Char → List Char → Int
  | [], pat => if jsStartsWithL [] pat then 0 else -1
  | c :: cs, pat =>
    if jsStartsWithL (c :: cs) pat then 0
    else
      let r := jsIndexOf cs pat
      if r < 0 then -1 else r + 1

/-- `s.startsWith(pre)` on strings. -/
def strStartsWith (s pre : String) : Bool := jsStartsWithL s.data pre.data

/-- `s.includes(sub)` on strings. -/
def strIncludes (s sub : String) : Bool := jsIncludesL s.data sub.data

/-- `s.endsWith(suf)` on strings. -/
def strEndsWith (s suf : String) : Bool :=
  jsStartsWithL s.data.reverse suf.data.reverse

/-- Auxiliary for `String.replace(pat, '')`: remove the first occurrence. -/
def replFirstL : List Char → List Char → List Char
  | [], _ => []
  | c :: cs, pat =>
    if jsStartsWithL (c :: cs) pat then (c :: cs).drop pat.length
    else c :: replFirstL cs pat

/-- `s.replace(pat, '')` (JavaScript `replace` with a string pattern
replaces only the first occurrence). -/
def replaceFirst (s pat : String) : String := String.mk (replFirstL s.data pat.data)

/-- `s.slice(0, -1)`. -/
def strDropLast (s : String) : String := String.mk s.data.dropLast

/-- `s.slice(1, -1)`. -/
def strDropFirstLast (s : String) : String := String.mk ((s.data.drop 1).dropLast)

/-- ASCII lower-casing of one character (`String.prototype.toLowerCase`
restricted to the ASCII identifiers this server manipulates). -/
def lowerChar (c : Char) : Char :=
  if 'A' ≤ c ∧ c ≤ 'Z' then Char.ofNat (c.toNat + 32) else c

/-- `s.toLowerCase()`. -/
def strLower (s : String) : String := String.mk (s.data.map lowerChar)

/-- Decimal digit as a character, `digitChar 7 = '7'`. -/
def digitChar (d : Nat) : Char := Char.ofNat (48 + d)

/-- Decimal digits with explicit fuel (`n` itself always suffices since
`n / 10 < n` for `n ≥ 10`); structural recursion keeps the definition
kernel-reducible. -/
def decDigitsAux : Nat → Nat → List Char
  | 0, n => [digitChar n]
  | fuel + 1, n =>
    if n < 10 then [digitChar n]
    else decDigitsAux fuel (n / 10) ++ [digitChar (n % 10)]

/-- Decimal digits of a natural number, most significant first
(the character list of JavaScript `String(n)` for a non-negative int). -/
def decDigits (n : Nat) : List Char := decDigitsAux n n

/-- JavaScript `String(n)` for a natural number. -/
def decRepr (n : Nat) : String := String.mk (decDigits n)

/-- `s.padStart(n, '0')`. -/
def padZeros (n : Nat) (s : String) : String :=
  String.mk (List.replicate (n - s.data.length) '0' ++ s.data)

/-! ## Tier classification (YamlServiceParser.determineSourceType,
YamlRouteParser.determineSourceType, YamlLinkParser.determineSourceType —
all three are textually identical) -/

/-- Origin tier of a definition file. -/
inductive SourceType where
  | core
  | contrib
  | custom
deriving DecidableEq, Repr

/-- `determineSourceType`: strip the Drupal root from the path
(`filePath.replace(drupalRoot, '')`), then test the directory markers in
order — `/core/` first, `/modules/custom/` second — defaulting to
`contrib`. -/
def determineSourceType (drupalRoot filePath : String) : SourceType :=
  let relativePath := replaceFirst filePath drupalRoot
  if strIncludes relativePath "/core/" then SourceType.core
  else if strIncludes relativePath "/modules/custom/" then SourceType.custom
  else SourceType.contrib

/-! ## Cache manager (CacheManager) -/

/-- One cache entry: value, the `Date.now()` timestamp at `set` time, and
the per-entry TTL in milliseconds; `none` embeds the JavaScript
`Infinity` TTL used for definition-file entries. -/
structure CacheEntry (α : Type) where
  value : α
  timestamp : Int
  ttl : Option Int
deriving DecidableEq, Repr

/-- The cache's key→entry map, as an association list. -/
abbrev CacheState (α : Type) : Type := List (String × CacheEntry α)

/-- `Date.now() - entry.timestamp > entry.ttl`; with `ttl = Infinity` the
comparison is always false. -/
def CacheEntry.expired (e : CacheEntry α) (now : Int) : Bool :=
  match e.ttl with
  | none => false
  | some t => decide (now - e.timestamp > t)

/-- `CacheManager.set`: overwrite the entry for `k` in place, or append a
new one (JavaScript `Map.set` keeps the original insertion position on
overwrite). -/
def CacheManager.set (st : CacheState α) (k : String) (v : α) (now : Int)
    (ttl : Option Int) : CacheState α :=
  if st.any (fun kv => kv.1 = k) then
    st.map (fun kv => if kv.1 = k then (k, ⟨v, now, ttl⟩) else kv)
  else st ++ [(k, ⟨v, now, ttl⟩)]

/-- `CacheManager.delete`. -/
def CacheManager.erase (st : CacheState α) (k : String) : CacheState α :=
  st.filter (fun kv => kv.1 ≠ k)

/-- `CacheManager.get`: return the value if present and unexpired;
an expired entry is deleted on read.  Result: the returned value and the
state after the read. -/
def CacheManager.get (st : CacheState α) (k : String) (now : Int) :
    Option α × CacheState α :=
  match st.find? (fun kv => kv.1 = k) with
  | none => (none, st)
  | some kv =>
    if kv.2.expired now then (none, CacheManager.erase st k)
    else (some kv.2.value, st)

/-- `CacheManager.cleanup`: the periodic sweep deletes every expired
entry. -/
def CacheManager.cleanup (st : CacheState α) (now : Int) : CacheState α :=
  st.filter (fun kv => !(kv.2.expired now))

/-- `CacheManager.matchesPattern`: exact match, then the
`pattern.endsWith('*')` branch (treats everything up to the final `*` as
a prefix), then the `*sub*` contains branch. -/
def CacheManager.matchesPattern (key pattern : String) : Bool :=
  if key = pattern then true
  else if strEndsWith pattern "*" then strStartsWith key (strDropLast pattern)
  else if strStartsWith pattern "*" && strEndsWith pattern "*" then
    strIncludes key (strDropFirstLast pattern)
  else false

/-- `CacheManager.clearPattern`: delete every entry whose key matches. -/
def CacheManager.clearPattern (st : CacheState α) (pattern : String) : CacheState α :=
  st.filter (fun kv => !(CacheManager.matchesPattern kv.1 pattern))

/-- `YamlServiceParser.SERVICES_TTL = Infinity` (likewise `ROUTES_TTL`
and `LINKS_TTL`): the retention marker for definition-file entries. -/
def servicesTTL : Option Int := none

/-- A read-only-or-sweep operation on the cache: the operations of claim
C8 that are neither an explicit delete, a `clearPattern`, nor a `set`. -/
inductive CacheOp where
  | read (k : String) (now : Int)
  | sweep (now : Int)

/-- Effect of one read/sweep operation on the cache state. -/
def CacheManager.applyOp (st : CacheState α) : CacheOp → CacheState α
  | CacheOp.read k now => (CacheManager.get st k now).2
  | CacheOp.sweep now => CacheManager.cleanup st now

/-- Effect of a sequence of read/sweep operations. -/
def CacheManager.applyOps (st : CacheState α) : List CacheOp → CacheState α
  | [] => st
  | op :: ops => CacheManager.applyOps (CacheManager.applyOp st op) ops

/-! ## File-watch synchronizer (server.ts) -/

/-- `isCustomCode` (server.ts): true when the path contains neither
`/core/` nor `/modules/contrib/`. -/
def isCustomCode (filePath : String) : Bool :=
  !(strIncludes filePath "/core/") && !(strIncludes filePath "/modules/contrib/")

/-- The per-file service index: file path → entities parsed from it
(the cache keys `yaml:services:<path>`, abstracted over the entity
payload). -/
abbrev ServiceIndex (α : Type) : Type := List (String × α)

/-- `replaceFile`: wholesale replacement of one file's entities. -/
def replaceFileEntities (st : ServiceIndex α) (p : String) (ents : α) : ServiceIndex α :=
  (p, ents) :: st.filter (fun kv => kv.1 ≠ p)

/-- `connection.onDidChangeWatchedFiles` for `.services.yml` files:
events for paths failing `isCustomCode` are skipped; type 1 (created) and
2 (changed) re-parse and replace, type 3 (deleted) purges.  `parsed` is
the result of re-parsing the file's current content. -/
def onWatchedServicesFile (st : ServiceIndex α) (filePath : String)
    (eventType : Nat) (parsed : α) : ServiceIndex α :=
  if !(isCustomCode filePath) then st
  else if strEndsWith filePath ".services.yml" then
    if eventType = 1 ∨ eventType = 2 then replaceFileEntities st filePath parsed
    else if eventType = 3 then st.filter (fun kv => kv.1 ≠ filePath)
    else st
  else st

/-! ## External fixer (PhpCsProvider) -/

/-- Outcome of `execAsync(phpcbf ...)`: `ok` for exit code 0, `error c`
when the process exits with the non-zero code `c` (the thrown exception
of the `await`). -/
abbrev ExecOutcome : Type := Except Int Unit

/-- `PhpCsProvider.fixFile` reduced to its decision: disabled or missing
binary → `false` (no-op); otherwise the `try/catch` returns `true` for
every outcome of the spawned fixer, exit codes 1 (fixes made) and
2 (fixable errors remain) and all others alike.  No outcome is rethrown:
the embedding is a total function into `Bool`. -/
def PhpCsProvider.fixFile (enabled available : Bool) (result : ExecOutcome) : Bool :=
  if !enabled || !available then false
  else
    match result with
    | Except.ok _ => true
    | Except.error _ => true

/-- `PhpCsProvider.formatDocument`'s output validation: non-empty, differs
from the original, and is not a phpcbf status report. -/
def PhpCsProvider.isValidOutput (stdout originalText : String) : Bool :=
  !(stdout = "") && !(stdout = originalText) &&
    !(strIncludes stdout "No violations") &&
    !(strIncludes stdout "Time:") && !(strIncludes stdout "Memory:")

/-- `PhpCsProvider.formatDocument` reduced to its decision: disabled or
missing binary → `none`; a spawn `error` event (`spawnOutcome = none`)
resolves to `none`; otherwise the collected stdout replaces the document
only when it looks like reformatted content.  Exit codes are never
inspected; nothing is thrown. -/
def PhpCsProvider.formatDocument (enabled available : Bool)
    (spawnOutcome : Option String) (originalText : String) : Option String :=
  if !enabled || !available then none
  else
    match spawnOutcome with
    | none => none
    | some out =>
      if PhpCsProvider.isValidOutput out originalText then some out else none

/-! ## Services, completion filtering and ranking -/

/-- A parsed service (`DrupalService`); only the fields the verified
operations read are carried (`class` is renamed `className`, a Lean
keyword; display-only fields are omitted). -/
structure DrupalService where
  name : String
  className : Option String := none
  sourceType : Option SourceType := none
deriving DecidableEq, Repr

/-- `BaseServiceProvider.filterValidServices`: drop class aliases
(names containing a backslash) and special directives (names starting
with an underscore). -/
def filterValidServices (services : List DrupalService) : List DrupalService :=
  services.filter (fun s =>
    !(strIncludes s.name "\\") && !(strStartsWith s.name "_"))

/-- `BaseServiceProvider.getSortPrefix` (renamed): the tier component of
the sort key — custom `0_`, contrib `1_`, core `2_`, unknown `3_`. -/
def tierTag : Option SourceType → String
  | some SourceType.custom => "0_"
  | some SourceType.contrib => "1_"
  | some SourceType.core => "2_"
  | _ => "3_"

/-- The inline tier component used by `allRoutesCompletions`
(`custom ? '0' : contrib ? '1' : '2'`; core and unknown share `'2'`). -/
def routeTierTag : Option SourceType → String
  | some SourceType.custom => "0"
  | some SourceType.contrib => "1"
  | _ => "2"

/-- `BaseCompletionProvider.calculateMatchScore`: the `sortText` emitted
for a service candidate.  `tierText` is the tier component
(`getSortPrefix`).  Note the band digit comes first and the tier
component after it. -/
def calculateMatchScore (serviceName typedText tierText : String) : String :=
  if typedText = "" then tierText ++ serviceName
  else if strStartsWith serviceName typedText then
    "0_" ++ padZeros 3 (decRepr (serviceName.data.length - typedText.data.length))
      ++ "_" ++ tierText ++ serviceName
  else if strIncludes serviceName typedText then "1_" ++ tierText ++ serviceName
  else "2_" ++ tierText ++ serviceName

/-- `BaseCompletionProvider.calculateRouteMatchScore`: the `sortText`
emitted for a route candidate.  The tier component comes first. -/
def calculateRouteMatchScore (routeName typed tierText : String) : String :=
  if typed = "" then tierText ++ "_" ++ routeName
  else if strLower routeName = strLower typed then tierText ++ "_0_" ++ routeName
  else if strStartsWith (strLower routeName) (strLower typed) then
    tierText ++ "_1_" ++ padZeros 5 (decRepr (routeName.data.length - typed.data.length))
      ++ "_" ++ routeName
  else tierText ++ "_2_" ++ routeName

/-- Lexicographic (code-unit) comparison of character lists: the order in
which an LSP client presents items sorted by `sortText`. -/
def lexLtB : List Char → List Char → Bool
  | [], [] => false
  | [], _ :: _ => true
  | _ :: _, [] => false
  | a :: as, b :: bs => if a < b then true else if b < a then false else lexLtB as bs

/-- `a` sorts strictly before `b` under `sortText` ordering. -/
def keyLt (a b : String) : Prop := lexLtB a.data b.data = true

instance (a b : String) : Decidable (keyLt a b) := by
  unfold keyLt
  infer_instance

/-- Match band of a service candidate against the typed text, as
discriminated by `calculateMatchScore`: 0 prefix (exact included),
1 contains, 2 other. -/
def matchBand (serviceName typedText : String) : Nat :=
  if strStartsWith serviceName typedText then 0
  else if strIncludes serviceName typedText then 1
  else 2

/-- Match band of a route candidate, as discriminated by
`calculateRouteMatchScore`: 0 case-insensitive exact, 1 case-insensitive
prefix, 2 everything else (substring matches included). -/
def routeBand (routeName typed : String) : Nat :=
  if strLower routeName = strLower typed then 0
  else if strStartsWith (strLower routeName) (strLower typed) then 1
  else 2

/-- Numeric tier rank used by `getSortPrefix`. -/
def tierIdx : Option SourceType → Nat
  | some SourceType.custom => 0
  | some SourceType.contrib => 1
  | some SourceType.core => 2
  | _ => 3

/-- Numeric tier rank used by `allRoutesCompletions`. -/
def routeTierIdx : Option SourceType → Nat
  | some SourceType.custom => 0
  | some SourceType.contrib => 1
  | _ => 2

/-- A completion item restricted to the fields the claims speak about
(`detail`/`documentation` are display-only and omitted). -/
structure CompletionItem where
  label : String
  sortText : String
  filterText : String
  insertText : Option String := none
deriving DecidableEq, Repr

/-- `BaseCompletionProvider.buildCompletionItems` (fields under
verification only): one item per service, `sortText` from
`calculateMatchScore`, `filterText` the service name. -/
def buildCompletionItems (services : List DrupalService) (typedText : String) :
    List CompletionItem :=
  services.map (fun s =>
    { label := s.name
      sortText := calculateMatchScore s.name typedText (tierTag s.sourceType)
      filterText := s.name })

/-- `BaseCompletionProvider.provideCompletions` after the context checks:
filter the index's services, then build items. -/
def provideServiceCompletions (allServices : List DrupalService)
    (typedText : String) : List CompletionItem :=
  buildCompletionItems (filterValidServices allServices) typedText

/-- `YamlCompletionProvider.getArgumentServiceCompletions`, after the
current word has been isolated from the line (the cursor/word-boundary
scan is elided; `currentWord` is its result). -/
def getArgumentServiceCompletions (allServices : List DrupalService)
    (currentWord : String) : List CompletionItem :=
  let validServices := filterValidServices allServices
  let startsWithAt := strStartsWith currentWord "@"
  let typedText :=
    if startsWithAt then String.mk (currentWord.data.drop 1) else currentWord
  validServices.map (fun s =>
    if startsWithAt then
      { label := s.name
        sortText := calculateMatchScore s.name typedText (tierTag s.sourceType)
        filterText := s.name
        insertText := some ("@" ++ s.name) }
    else
      { label := "@" ++ s.name
        sortText := calculateMatchScore s.name typedText (tierTag s.sourceType)
        filterText := s.name
        insertText := some ("@" ++ s.name) })

/-! ## Reference extraction (PhpServiceNameExtractor,
PhpDiagnosticProvider, PhpCompletionProvider, YamlDiagnosticProvider)

Each regular expression of the source is embedded as a deterministic
scanner.  This is faithful because in every pattern the quantified
character classes are disjoint from the character that must follow them
(whitespace before `(`, name characters before a quote, non-commas before
`,`), so greedy matching never backtracks, and the literal alternatives
of each alternation are pairwise incompatible at their first divergence,
so ordered trial equals the engine's backtracking search. -/

/-- The single-quote character (spelled via its code point). -/
def quoteChar : Char := Char.ofNat 39

/-- The double-quote character. -/
def dquoteChar : Char := Char.ofNat 34

/-- Membership in the regex class `['"]`. -/
def isQuoteCh (c : Char) : Bool := c = quoteChar || c = dquoteChar

/-- Membership in the regex class `\s` (the whitespace the source's
patterns can meet in one line of code). -/
def isWsCh (c : Char) : Bool :=
  c = ' ' || c = Char.ofNat 9 || c = Char.ofNat 10 || c = Char.ofNat 13 ||
    c = Char.ofNat 11 || c = Char.ofNat 12

/-- Membership in `[a-z0-9._]` under the `i` flag (upper-case letters
match as well). -/
def isSvcNameCh (c : Char) : Bool :=
  ('a' ≤ lowerChar c && lowerChar c ≤ 'z') || ('0' ≤ c && c ≤ '9') ||
    c = '.' || c = '_'

/-- Membership in `[a-zA-Z0-9_.]` (no flag needed). -/
def isYamlNameCh (c : Char) : Bool :=
  ('a' ≤ c && c ≤ 'z') || ('A' ≤ c && c ≤ 'Z') || ('0' ≤ c && c ≤ '9') ||
    c = '_' || c = '.'

/-- Case-insensitive literal: consume `pat` (up to case) from the input,
returning the actually consumed characters and the rest. -/
def stripLitCI : List Char → List Char → Option (List Char × List Char)
  | [], cs => some ([], cs)
  | _ :: _, [] => none
  | p :: ps, c :: cs =>
    if lowerChar c = lowerChar p then
      match stripLitCI ps cs with
      | some pr => some (c :: pr.1, pr.2)
      | none => none
    else none

/-- Case-sensitive literal: consume `pat` from the input, returning the
rest. -/
def stripLitCS : List Char → List Char → Option (List Char)
  | [], cs => some cs
  | _ :: _, [] => none
  | p :: ps, c :: cs => if c = p then stripLitCS ps cs else none

/-- Tail `\s*\(\s*['"]([nameCh]+)['"]` of the service patterns; with
`needClose = false` the final quote class is `['"]?` (consumed when
present).  Returns (consumed characters, captured name, rest). -/
def matchSvcTail (nameCh : Char → Bool) (needClose : Bool) (cs : List Char) :
    Option (List Char × List Char × List Char) :=
  let w1 := cs.takeWhile isWsCh
  match cs.dropWhile isWsCh with
  | '(' :: r2 =>
    let w2 := r2.takeWhile isWsCh
    match r2.dropWhile isWsCh with
    | q :: r4 =>
      if isQuoteCh q then
        let nm := r4.takeWhile nameCh
        let r5 := r4.dropWhile nameCh
        if nm.isEmpty then none
        else
          match r5 with
          | q2 :: r6 =>
            if isQuoteCh q2 then some (w1 ++ '(' :: (w2 ++ q :: (nm ++ [q2])), nm, r6)
            else if needClose then none
            else some (w1 ++ '(' :: (w2 ++ q :: nm), nm, r5)
          | [] =>
            if needClose then none
            else some (w1 ++ '(' :: (w2 ++ q :: nm), nm, [])
      else none
    | [] => none
  | _ => none

/-- Tail `\s*\(\s*['"]([a-z0-9._]+)` of the route patterns: no closing
quote in the pattern at all, the match ends with the captured name. -/
def matchRouteTail (cs : List Char) : Option (List Char × List Char × List Char) :=
  let w1 := cs.takeWhile isWsCh
  match cs.dropWhile isWsCh with
  | '(' :: r2 =>
    let w2 := r2.takeWhile isWsCh
    match r2.dropWhile isWsCh with
    | q :: r4 =>
      if isQuoteCh q then
        let nm := r4.takeWhile isSvcNameCh
        let r5 := r4.dropWhile isSvcNameCh
        if nm.isEmpty then none
        else some (w1 ++ '(' :: (w2 ++ q :: nm), nm, r5)
      else none
    | [] => none
  | _ => none

/-- Tail `\s*\([^,]+,\s*['"]([a-z0-9._]+)` of the
`Link::createFromRoute` pattern. -/
def matchLinkTail (cs : List Char) : Option (List Char × List Char × List Char) :=
  let w1 := cs.takeWhile isWsCh
  match cs.dropWhile isWsCh with
  | '(' :: r2 =>
    let seg := r2.takeWhile (fun c => !(c = ','))
    match r2.dropWhile (fun c => !(c = ',')) with
    | ',' :: r3 =>
      if seg.isEmpty then none
      else
        let w2 := r3.takeWhile isWsCh
        match r3.dropWhile isWsCh with
        | q :: r4 =>
          if isQuoteCh q then
            let nm := r4.takeWhile isSvcNameCh
            let r5 := r4.dropWhile isSvcNameCh
            if nm.isEmpty then none
            else some (w1 ++ '(' :: (seg ++ ',' :: (w2 ++ q :: nm)), nm, r5)
          else none
        | [] => none
    | _ => none
  | _ => none

/-- A literal (under the `i` flag) followed by a tail matcher; the match
at one position of the subject. -/
def matchLitThen (lit : String)
    (tail : List Char → Option (List Char × List Char × List Char))
    (cs : List Char) : Option (List Char × List Char × List Char) :=
  match stripLitCI lit.data cs with
  | some pr =>
    match tail pr.2 with
    | some fnr => some (pr.1 ++ fnr.1, fnr.2.1, fnr.2.2)
    | none => none
  | none => none

/-- `::service\s*\(\s*['"]([a-z0-9._]+)['"]` (`needClose = true`, the
hover/definition extractor) or with `['"]?` (`needClose = false`, the
diagnostics extractor), at one position. -/
def matchP1At (needClose : Bool) (cs : List Char) :
    Option (List Char × List Char × List Char) :=
  matchLitThen "::service" (matchSvcTail isSvcNameCh needClose) cs

/-- `(?:\$this|\$container|\$this->container)->get\s*\(\s*['"]...`, at one
position.  The three receiver literals diverge pairwise before the
shared tail, so ordered trial is equivalent to the alternation. -/
def matchP2At (needClose : Bool) (cs : List Char) :
    Option (List Char × List Char × List Char) :=
  (matchLitThen "$this->get" (matchSvcTail isSvcNameCh needClose) cs) <|>
    (matchLitThen "$container->get" (matchSvcTail isSvcNameCh needClose) cs) <|>
      (matchLitThen "$this->container->get" (matchSvcTail isSvcNameCh needClose) cs)

/-- `Url::fromRoute\s*\(\s*['"]([a-z0-9._]+)`, at one position. -/
def matchUrlAt (cs : List Char) : Option (List Char × List Char × List Char) :=
  matchLitThen "Url::fromRoute" matchRouteTail cs

/-- `(?:\$this|\$response|\$form_state)->(?:redirect|setRedirect)\s*\(...`,
at one position; the six literal combinations in backtracking order. -/
def matchRedirAt (cs : List Char) : Option (List Char × List Char × List Char) :=
  (matchLitThen "$this->redirect" matchRouteTail cs) <|>
    (matchLitThen "$this->setRedirect" matchRouteTail cs) <|>
      (matchLitThen "$response->redirect" matchRouteTail cs) <|>
        (matchLitThen "$response->setRedirect" matchRouteTail cs) <|>
          (matchLitThen "$form_state->redirect" matchRouteTail cs) <|>
            (matchLitThen "$form_state->setRedirect" matchRouteTail cs)

/-- `Link::createFromRoute\s*\([^,]+,\s*['"]([a-z0-9._]+)`, at one
position. -/
def matchLinkAt (cs : List Char) : Option (List Char × List Char × List Char) :=
  matchLitThen "Link::createFromRoute" matchLinkTail cs

/-- Leftmost match from absolute position `i` in the suffix `s`:
`regex.exec` scanning.  Returns (match index, consumed, name, rest). -/
def scanFrom (matchAt : List Char → Option (List Char × List Char × List Char)) :
    Nat → List Char → Option (Nat × List Char × List Char × List Char)
  | i, [] => (matchAt []).map (fun fnr => (i, fnr.1, fnr.2.1, fnr.2.2))
  | i, c :: t =>
    ((matchAt (c :: t)).map (fun fnr => (i, fnr.1, fnr.2.1, fnr.2.2))).orElse
      (fun _ => scanFrom matchAt (i + 1) t)

/-- The `while ((match = re.exec(line)) !== null)` loop: successive
non-overlapping matches, `lastIndex` advancing past each match.  All
embedded patterns only produce non-empty matches, so the fuel
`s.length + 1` always suffices. -/
def execGo (matchAt : List Char → Option (List Char × List Char × List Char)) :
    Nat → Nat → List Char → List (Nat × List Char × List Char)
  | 0, _, _ => []
  | fuel + 1, i, s =>
    ((scanFrom matchAt i s).map (fun m =>
      (m.1, m.2.1, m.2.2.1) ::
        execGo matchAt fuel (m.1 + m.2.1.length) m.2.2.2)).getD []

/-- All matches of a pattern over a line, in order. -/
def execAll (matchAt : List Char → Option (List Char × List Char × List Char))
    (s : List Char) : List (Nat × List Char × List Char) :=
  execGo matchAt (s.length + 1) 0 s

/-- `indexOf` for one character, JavaScript result convention. -/
def idxOfCh : List Char → Char → Int
  | [], _ => -1
  | a :: as, c =>
    if a = c then 0
    else
      let r := idxOfCh as c
      if r < 0 then -1 else r + 1

/-- `lastIndexOf` for one character. -/
def lastIdxOfCh : List Char → Char → Int
  | [], _ => -1
  | a :: as, c =>
    let r := lastIdxOfCh as c
    if r ≥ 0 then r + 1 else if a = c then 0 else -1

/-- `PhpServiceNameExtractor.isCharacterInMatch`: locate the first quote
of the full match, and test
`quoteStart <= character <= quoteStart + 1 + name.length + 1`. -/
def isCharacterInMatch (idx : Nat) (full name : List Char) (character : Nat) : Bool :=
  let sq := idxOfCh full quoteChar
  let dq := idxOfCh full dquoteChar
  let quotePos := if sq ≥ 0 then sq else dq
  if quotePos < 0 then false
  else
    let quoteStart : Int := (idx : Int) + quotePos
    let serviceStart := quoteStart + 1
    let serviceEnd := serviceStart + name.length
    let quoteEnd := serviceEnd + 1
    decide (quoteStart ≤ (character : Int)) && decide ((character : Int) ≤ quoteEnd)

/-- `PhpServiceNameExtractor.extractServiceName`: all pattern-1 matches
first, each tested with `isCharacterInMatch`, then all pattern-2
matches.  Both patterns require the closing quote. -/
def extractServiceName (line : String) (character : Nat) : Option String :=
  match (execAll (matchP1At true) line.data).find?
      (fun m => isCharacterInMatch m.1 m.2.1 m.2.2 character) with
  | some m => some (String.mk m.2.2)
  | none =>
    match (execAll (matchP2At true) line.data).find?
        (fun m => isCharacterInMatch m.1 m.2.1 m.2.2 character) with
    | some m => some (String.mk m.2.2)
    | none => none

/-- One extracted reference: the captured name and its computed span
(`start`/`end` in the source; `end` is a Lean keyword). -/
structure ExtractedCall where
  name : String
  startPos : Nat
  endPos : Nat
deriving DecidableEq, Repr

/-- `match.index + fullMatch.indexOf(captured)` and the derived span, as
computed in `extractServiceCalls`/`extractRouteCalls`. -/
def toCall (m : Nat × List Char × List Char) : ExtractedCall :=
  let s := m.1 + (jsIndexOf m.2.1 m.2.2).toNat
  { name := String.mk m.2.2, startPos := s, endPos := s + m.2.2.length }

/-- `PhpDiagnosticProvider.extractServiceCalls`: both service patterns
with the closing quote optional. -/
def extractServiceCalls (line : String) : List ExtractedCall :=
  ((execAll (matchP1At false) line.data).map toCall) ++
    ((execAll (matchP2At false) line.data).map toCall)

/-- `PhpDiagnosticProvider.extractRouteCalls`: the three route-call
shapes. -/
def extractRouteCalls (line : String) : List ExtractedCall :=
  ((execAll matchUrlAt line.data).map toCall) ++
    ((execAll matchRedirAt line.data).map toCall) ++
      ((execAll matchLinkAt line.data).map toCall)

/-- End-anchored tail `\s*\(\s*['"][^'"]*$` of
`PhpCompletionProvider.getServiceCallInfo`'s patterns. -/
def svcOpenTailAt (cs : List Char) : Bool :=
  match cs.dropWhile isWsCh with
  | '(' :: r2 =>
    match r2.dropWhile isWsCh with
    | q :: r4 => isQuoteCh q && r4.all (fun c => !(isQuoteCh c))
    | [] => false
  | _ => false

/-- `::service\s*\(\s*['"][^'"]*$` at one position (these two patterns
carry no `i` flag). -/
def p1OpenAt (cs : List Char) : Bool :=
  match stripLitCS "::service".data cs with
  | some r => svcOpenTailAt r
  | none => false

/-- `(?:\$this|\$container|\$this->container)->get\s*\(\s*['"][^'"]*$` at
one position. -/
def p2OpenAt (cs : List Char) : Bool :=
  (match stripLitCS "$this->get".data cs with
    | some r => svcOpenTailAt r
    | none => false) ||
  (match stripLitCS "$container->get".data cs with
    | some r => svcOpenTailAt r
    | none => false) ||
  (match stripLitCS "$this->container->get".data cs with
    | some r => svcOpenTailAt r
    | none => false)

/-- `regex.test(line)` for an unanchored pattern: a match at some
position. -/
def testAnywhere (p : List Char → Bool) : List Char → Bool
  | [] => p []
  | c :: cs => p (c :: cs) || testAnywhere p cs

/-- `PhpCompletionProvider.getServiceCallInfo`: if either open-literal
pattern matches, the reported `quoteStart` is the last index of the
quote character (single quote if the line contains one, double quote
otherwise). -/
def getServiceCallInfo (line : String) : Option Int :=
  if testAnywhere p1OpenAt line.data || testAnywhere p2OpenAt line.data then
    let qc := if strIncludes line (String.mk [quoteChar]) then quoteChar else dquoteChar
    some (lastIdxOfCh line.data qc)
  else none

/-! ## Route validation (PhpDiagnosticProvider.provideDiagnostics,
YamlDiagnosticProvider.validateRoutes) -/

/-- `isDynamicRoutePattern` (identical in both providers): the allowlist
of known-dynamic route-name prefixes. -/
def isDynamicRoutePattern (routeName : String) : Bool :=
  ["view.", "rest.", "jsonapi.", "layout_builder.", "field_ui."].any
    (fun p => strStartsWith routeName p)

/-- A `Route '<name>' not found` diagnostic: line, span, and the name the
message carries. -/
structure RouteDiag where
  line : Nat
  startPos : Nat
  endPos : Nat
  routeName : String
deriving DecidableEq, Repr

/-- One line of `PhpDiagnosticProvider.provideDiagnostics`' route loop:
a diagnostic per extracted route call whose name is neither in the index
nor allowlisted. -/
def phpValidateRouteLine (routeNames : List String) (lineNum : Nat)
    (line : String) : List RouteDiag :=
  (extractRouteCalls line).filterMap (fun m =>
    if routeNames.contains m.name then none
    else if isDynamicRoutePattern m.name then none
    else some ⟨lineNum, m.startPos, m.endPos, m.name⟩)

/-- The indexed `for (let lineNum = 0; ...)` loop of
`PhpDiagnosticProvider.provideDiagnostics`' route validation, starting at
line index `i`. -/
def phpRouteDiagsFrom (routeNames : List String) (i : Nat) :
    List String → List RouteDiag
  | [] => []
  | l :: ls => phpValidateRouteLine routeNames i l ++
      phpRouteDiagsFrom routeNames (i + 1) ls

/-- The route-validation portion of
`PhpDiagnosticProvider.provideDiagnostics` over a document's lines
(`text.split('\n')`). -/
def phpRouteDiagnostics (routeNames : List String) (lines : List String) :
    List RouteDiag :=
  phpRouteDiagsFrom routeNames 0 lines

/-- Tail `:\s*['"]?([a-zA-Z0-9_.]+)['"]?\s*$` after a route key literal
in `YamlDiagnosticProvider.validateRoutes`'s anchored pattern. -/
def yamlKeyTail (r : List Char) : Option (List Char) :=
  match r with
  | ':' :: r2 =>
    let r3 := r2.dropWhile isWsCh
    let r4 := match r3 with
      | q :: t => if isQuoteCh q then t else r3
      | [] => r3
    let nm := r4.takeWhile isYamlNameCh
    let r5 := r4.dropWhile isYamlNameCh
    if nm.isEmpty then none
    else
      let r6 := match r5 with
        | q :: t => if isQuoteCh q then t else r5
        | [] => r5
      if (r6.dropWhile isWsCh).isEmpty then some nm else none
  | _ => none

/-- `^\s*(?:route_name|route|base_route):\s*['"]?([a-zA-Z0-9_.]+)['"]?\s*$`:
the captured route name, if the whole line matches. -/
def yamlRouteName (line : String) : Option String :=
  let r1 := line.data.dropWhile isWsCh
  match (match stripLitCS "route_name".data r1 with
          | some rest => yamlKeyTail rest
          | none => none) with
  | some nm => some (String.mk nm)
  | none =>
    match (match stripLitCS "route".data r1 with
            | some rest => yamlKeyTail rest
            | none => none) with
    | some nm => some (String.mk nm)
    | none =>
      match (match stripLitCS "base_route".data r1 with
              | some rest => yamlKeyTail rest
              | none => none) with
      | some nm => some (String.mk nm)
      | none => none

/-- One line of `YamlDiagnosticProvider.validateRoutes`: at most one
diagnostic, at `line.indexOf(routeName)`. -/
def yamlValidateRouteLine (routeNames : List String) (lineNum : Nat)
    (line : String) : List RouteDiag :=
  match yamlRouteName line with
  | none => []
  | some nm =>
    if routeNames.contains nm then []
    else if isDynamicRoutePattern nm then []
    else
      let s := (jsIndexOf line.data nm.data).toNat
      [⟨lineNum, s, s + nm.data.length, nm⟩]

/-- The indexed loop of `YamlDiagnosticProvider.validateRoutes`, starting
at line index `i`. -/
def yamlRouteDiagsFrom (routeNames : List String) (i : Nat) :
    List String → List RouteDiag
  | [] => []
  | l :: ls => yamlValidateRouteLine routeNames i l ++
      yamlRouteDiagsFrom routeNames (i + 1) ls

/-- `YamlDiagnosticProvider.validateRoutes` over a document's lines. -/
def validateRoutesYaml (routeNames : List String) (lines : List String) :
    List RouteDiag :=
  yamlRouteDiagsFrom routeNames 0 lines

/-- The characters the captured-name classes `[a-z0-9._]` (with the `i`
flag) and `[a-zA-Z0-9_.]` range over. -/
def svcNameChars : List Char :=
  "abcdefghijklmnopqrstuvwxyzABCDEFGHIJKLMNOPQRSTUVWXYZ0123456789._".data

/-! ## Supporting lemmas -/

theorem find?_filter_of_found {α : Type} {p q : α → Bool} {l : List α} {a : α}
    (h : l.find? p = some a) (hq : q a = true) :
    (l.filter q).find? p = some a := by
  induction l with
  | nil => simp at h
  | cons x xs ih =>
    by_cases hp : p x
    · rw [List.find?_cons_of_pos _ hp] at h
      obtain rfl : x = a := by injection h
      rw [List.filter_cons_of_pos hq, List.find?_cons_of_pos _ hp]
    · rw [List.find?_cons_of_neg _ hp] at h
      by_cases hqx : q x
      · rw [List.filter_cons_of_pos hqx, List.find?_cons_of_neg _ hp]
        exact ih h
      · rw [List.filter_cons_of_neg (by simpa using hqx)]
        exact ih h

/-! ## Claim C1 -/

/-- Claim C1 (amended): the tier is computed by testing the root-relative
path against the ordered markers with the `core` marker first: a path
containing the core marker classifies as core even when the custom
marker is also present (core wins), a path containing only the custom
marker classifies as custom, and unmatched paths default to the contrib
tier. -/
theorem C1_tier_marker_order (drupalRoot filePath : String) :
    (strIncludes (replaceFirst filePath drupalRoot) "/core/" = true →
      determineSourceType drupalRoot filePath = SourceType.core) ∧
    (strIncludes (replaceFirst filePath drupalRoot) "/core/" = false →
      strIncludes (replaceFirst filePath drupalRoot) "/modules/custom/" = true →
      determineSourceType drupalRoot filePath = SourceType.custom) ∧
    (strIncludes (replaceFirst filePath drupalRoot) "/core/" = false →
      strIncludes (replaceFirst filePath drupalRoot) "/modules/custom/" = false →
      determineSourceType drupalRoot filePath = SourceType.contrib) := by
  refine ⟨fun h1 => ?_, fun h1 h2 => ?_, fun h1 h2 => ?_⟩
  · simp [determineSourceType, h1]
  · simp [determineSourceType, h1, h2]
  · simp [determineSourceType, h1, h2]

/-- Claim C1, counterexample: a path containing both the core marker and
the custom marker classifies as core, not custom — the core marker is
tested first. -/
theorem C1_counterexample :
    strIncludes (replaceFirst "/root/core/modules/custom/a.services.yml" "/root")
      "/core/" = true ∧
    strIncludes (replaceFirst "/root/core/modules/custom/a.services.yml" "/root")
      "/modules/custom/" = true ∧
    determineSourceType "/root" "/root/core/modules/custom/a.services.yml" =
      SourceType.core ∧
    SourceType.core ≠ SourceType.custom := by
  refine ⟨by decide, by decide, by decide, by decide⟩

/-- Claim C1, witness. -/
theorem C1_witness :
    determineSourceType "/r" "/r/modules/custom/m/x.services.yml" =
      SourceType.custom :=
  (C1_tier_marker_order "/r" "/r/modules/custom/m/x.services.yml").2.1
    (by decide) (by decide)

/-! ## Claim C3 -/

/-- Claim C3: because `matchesPattern` tests `pattern.endsWith('*')`
before the substring branch, a `*foo*` pattern is treated as the prefix
pattern `*foo` and the substring branch is unreachable; a key containing
`foo` but not starting with `*foo` is not cleared, although the exact and
prefix forms behave as documented. -/
theorem C3_substring_branch_unreachable :
    strIncludes "abcfoo" "foo" = true ∧
    CacheManager.matchesPattern "abcfoo" "*foo*" = false ∧
    CacheManager.clearPattern [("abcfoo", (⟨0, 0, none⟩ : CacheEntry Nat))] "*foo*" =
      [("abcfoo", (⟨0, 0, none⟩ : CacheEntry Nat))] ∧
    CacheManager.matchesPattern "abcfoo" "abcfoo" = true ∧
    CacheManager.matchesPattern "abcfoo" "xyz" = false ∧
    CacheManager.matchesPattern "abcfoo" "abc*" = true ∧
    CacheManager.matchesPattern "abcfoo" "bc*" = false := by
  refine ⟨by decide, by decide, by decide, by decide, by decide, by decide, by decide⟩

/-! ## Claim C7 -/

/-- Claim C7 (amended): live re-scans are guarded by `isCustomCode`,
i.e. by the path containing neither `/core/` nor `/modules/contrib/` —
not by the computed tier.  Files under `/core/` or `/modules/contrib/`
never modify the index, while a changed or created `.services.yml` file
passing the path guard is re-parsed and wholesale-replaced even when its
tier is contrib (any path outside `/modules/custom/` that also avoids
the two excluded markers). -/
theorem C7_live_rescan_guard (st : ServiceIndex α) (filePath : String)
    (eventType : Nat) (parsed : α) :
    (strIncludes filePath "/core/" = true →
      onWatchedServicesFile st filePath eventType parsed = st) ∧
    (strIncludes filePath "/modules/contrib/" = true →
      onWatchedServicesFile st filePath eventType parsed = st) ∧
    (isCustomCode filePath = true →
      strEndsWith filePath ".services.yml" = true →
      eventType = 1 ∨ eventType = 2 →
      onWatchedServicesFile st filePath eventType parsed =
        replaceFileEntities st filePath parsed) ∧
    (isCustomCode filePath = true →
      strEndsWith filePath ".services.yml" = true →
      eventType = 3 →
      onWatchedServicesFile st filePath eventType parsed =
        st.filter (fun kv => kv.1 ≠ filePath)) := by
  refine ⟨fun h1 => ?_, fun h1 => ?_, fun h1 h2 h3 => ?_, fun h1 h2 h3 => ?_⟩
  · simp [onWatchedServicesFile, isCustomCode, h1]
  · simp [onWatchedServicesFile, isCustomCode, h1]
  · simp [onWatchedServicesFile, h1, h2, h3]
  · subst h3; simp [onWatchedServicesFile, h1, h2]

/-- Claim C7, counterexample: a change event for a contrib-tier
`.services.yml` file (a path without `/modules/custom/`, but also
without `/modules/contrib/`) re-parses the file and modifies the index,
although the claim says only custom-tier files are re-scanned. -/
theorem C7_counterexample :
    determineSourceType "/root" "/root/modules/foo/foo.services.yml" =
      SourceType.contrib ∧
    isCustomCode "/root/modules/foo/foo.services.yml" = true ∧
    onWatchedServicesFile ([] : ServiceIndex (List String))
      "/root/modules/foo/foo.services.yml" 2 ["svc"] =
      [("/root/modules/foo/foo.services.yml", ["svc"])] ∧
    ([("/root/modules/foo/foo.services.yml", ["svc"])] : ServiceIndex (List String)) ≠
      [] := by
  refine ⟨by decide, by decide, by decide, by decide⟩

/-- Claim C7, witness. -/
theorem C7_witness :
    onWatchedServicesFile ([] : ServiceIndex Nat) "/x/core/a.services.yml" 2 5 = [] ∧
    onWatchedServicesFile ([] : ServiceIndex Nat)
      "/m/modules/custom/a.services.yml" 2 5 =
      [("/m/modules/custom/a.services.yml", 5)] := by
  refine ⟨(C7_live_rescan_guard [] "/x/core/a.services.yml" 2 5).1 (by decide), ?_⟩
  have h := (C7_live_rescan_guard ([] : ServiceIndex Nat)
    "/m/modules/custom/a.services.yml" 2 5).2.2.1 (by decide) (by decide) (Or.inr rfl)
  rw [h]; rfl

/-! ## Claim C9 -/

/-- Claim C9 (amended): when the fixer is enabled and present, `fixFile`
reports success for exit codes 1 (fixes made) and 2 (fixable errors
remain) — and in fact for every other failure of the spawned fixer as
well, since the `catch` returns `true` unconditionally; only a disabled
or missing tool yields the no-op result `false`.  `formatDocument`
resolves to `null` (no edits) on a process error or unusable output.
No failure is ever thrown to the caller: both embeddings are total. -/
theorem C9_fixer_error_reporting (enabled available : Bool) (r : ExecOutcome)
    (out orig : String) :
    PhpCsProvider.fixFile true true (Except.error 1) = true ∧
    PhpCsProvider.fixFile true true (Except.error 2) = true ∧
    PhpCsProvider.fixFile true true r = true ∧
    (enabled = false ∨ available = false →
      PhpCsProvider.fixFile enabled available r = false) ∧
    PhpCsProvider.formatDocument enabled available none orig = none ∧
    (PhpCsProvider.isValidOutput out orig = false →
      PhpCsProvider.formatDocument enabled available (some out) orig = none) := by
  refine ⟨rfl, rfl, ?_, fun h => ?_, ?_, fun h => ?_⟩
  · cases r <;> rfl
  · rcases h with h | h <;> subst h <;> simp [PhpCsProvider.fixFile]
  · cases enabled <;> cases available <;> rfl
  · cases enabled <;> cases available <;>
      simp [PhpCsProvider.formatDocument, h]

/-- Claim C9, counterexample: exit code 3 — neither of the two special
codes — is still reported as success (`true`), not as a no-op
(`false`). -/
theorem C9_counterexample :
    PhpCsProvider.fixFile true true (Except.error 3) = true ∧
    (3 : Int) ≠ 1 ∧ (3 : Int) ≠ 2 ∧ true ≠ false := by
  refine ⟨rfl, by decide, by decide, by decide⟩

/-- Claim C9, witness. -/
theorem C9_witness :
    PhpCsProvider.fixFile false true (Except.error 7) = false ∧
    PhpCsProvider.fixFile true true (Except.error 7) = true ∧
    PhpCsProvider.formatDocument true true (some "x") "x" = none :=
  ⟨(C9_fixer_error_reporting false true (Except.error 7) "x" "x").2.2.2.1 (Or.inl rfl),
   (C9_fixer_error_reporting false true (Except.error 7) "x" "x").2.2.1,
   (C9_fixer_error_reporting true true (Except.error 7) "x" "x").2.2.2.2.2 (by decide)⟩

/-! ## Claim C10 -/

/-- Claim C10: service completion items never carry a service whose name
contains a backslash (class alias) or starts with an underscore (special
directive): both the base provider path and the YAML argument path
filter the candidate set with `filterValidServices` before building
items. -/
theorem C10_filtered_completions (allServices : List DrupalService)
    (typedText currentWord : String) (it : CompletionItem) :
    (it ∈ provideServiceCompletions allServices typedText →
      strIncludes it.filterText "\\" = false ∧
        strStartsWith it.filterText "_" = false) ∧
    (it ∈ getArgumentServiceCompletions allServices currentWord →
      strIncludes it.filterText "\\" = false ∧
        strStartsWith it.filterText "_" = false) := by
  constructor
  · intro hm
    simp only [provideServiceCompletions, buildCompletionItems, filterValidServices,
      List.mem_map, List.mem_filter] at hm
    obtain ⟨s, ⟨_, hs⟩, rfl⟩ := hm
    simpa using hs
  · intro hm
    simp only [getArgumentServiceCompletions, filterValidServices,
      List.mem_map, List.mem_filter] at hm
    obtain ⟨s, ⟨_, hs⟩, rfl⟩ := hm
    by_cases hat : strStartsWith currentWord "@" <;> simpa [hat] using hs

/-- Claim C10, witness. -/
theorem C10_witness :
    strIncludes (CompletionItem.mk "svc.one" "3_svc.one" "svc.one" none).filterText
      "\\" = false ∧
    strStartsWith (CompletionItem.mk "svc.one" "3_svc.one" "svc.one" none).filterText
      "_" = false :=
  (C10_filtered_completions [⟨"svc.one", none, none⟩] "" ""
    ⟨"svc.one", "3_svc.one", "svc.one", none⟩).1 (by decide)

/-! ## Claim C8 -/

theorem infinite_entry_preserved (op : CacheOp) {st : CacheState α} {k : String}
    {e : CacheEntry α}
    (hf : st.find? (fun kv => kv.1 = k) = some (k, e)) (ht : e.ttl = none) :
    (CacheManager.applyOp st op).find? (fun kv => kv.1 = k) = some (k, e) := by
  cases op with
  | sweep now =>
    exact find?_filter_of_found hf (by simp [CacheEntry.expired, ht])
  | read k' now =>
    simp only [CacheManager.applyOp, CacheManager.get]
    by_cases hk : k' = k
    · subst hk
      rw [hf]
      simp [CacheEntry.expired, ht, hf]
    · cases hfind : st.find? (fun kv => kv.1 = k') with
      | none => simp [hfind, hf]
      | some kv =>
        dsimp only
        by_cases hexp : kv.2.expired now
        · rw [if_pos hexp]
          exact find?_filter_of_found hf
            (by simp only [decide_eq_true_eq]; exact fun h => hk h.symm)
        · rw [if_neg hexp]; exact hf

/-- Claim C8: an entry stored with the infinite-TTL marker
(`SERVICES_TTL = Infinity`, embedded as `none`) survives every sequence
of reads and periodic cleanup sweeps — it is never expired by `get` and
never removed by `cleanup` — and every later read still returns its
value. -/
theorem C8_infinite_ttl_persists (ops : List CacheOp) (st : CacheState α)
    (k : String) (e : CacheEntry α)
    (hf : st.find? (fun kv => kv.1 = k) = some (k, e))
    (ht : e.ttl = servicesTTL) :
    (CacheManager.applyOps st ops).find? (fun kv => kv.1 = k) = some (k, e) ∧
    ∀ now, (CacheManager.get (CacheManager.applyOps st ops) k now).1 = some e.value := by
  rw [servicesTTL] at ht
  have main : ∀ (ops : List CacheOp) (st : CacheState α),
      st.find? (fun kv => kv.1 = k) = some (k, e) →
      (CacheManager.applyOps st ops).find? (fun kv => kv.1 = k) = some (k, e) := by
    intro ops
    induction ops with
    | nil => intro st h; exact h
    | cons op ops ih =>
      intro st h
      exact ih _ (infinite_entry_preserved op h ht)
  refine ⟨main ops st hf, fun now => ?_⟩
  have h := main ops st hf
  simp [CacheManager.get, h, CacheEntry.expired, ht]

/-- Claim C8, witness. -/
theorem C8_witness :
    (CacheManager.applyOps [("k", (⟨7, 0, none⟩ : CacheEntry Nat))]
        [CacheOp.read "k" 50, CacheOp.sweep 100, CacheOp.read "j" 3]).find?
      (fun kv => kv.1 = "k") = some ("k", (⟨7, 0, none⟩ : CacheEntry Nat)) ∧
    (CacheManager.get (CacheManager.applyOps [("k", (⟨7, 0, none⟩ : CacheEntry Nat))]
        [CacheOp.read "k" 50, CacheOp.sweep 100, CacheOp.read "j" 3]) "k" 1000).1 =
      some 7 := by
  have h := C8_infinite_ttl_persists
    [CacheOp.read "k" 50, CacheOp.sweep 100, CacheOp.read "j" 3]
    [("k", (⟨7, 0, none⟩ : CacheEntry Nat))] "k" ⟨7, 0, none⟩ (by decide) rfl
  exact ⟨h.1, h.2 1000⟩

/-! ## Claim C2: lexicographic-order lemmas -/

theorem lexLtB_cons_same (c : Char) (x y : List Char) :
    lexLtB (c :: x) (c :: y) = lexLtB x y := by
  simp only [lexLtB]
  rw [if_neg (lt_irrefl c), if_neg (lt_irrefl c)]

theorem lexLtB_head_lt {a b : Char} (h : a < b) (x y : List Char) :
    lexLtB (a :: x) (b :: y) = true := by
  simp only [lexLtB]
  rw [if_pos h]

theorem lexLtB_append_same (p x y : List Char) :
    lexLtB (p ++ x) (p ++ y) = lexLtB x y := by
  induction p with
  | nil => rfl
  | cons c cs ih =>
    rw [List.cons_append, List.cons_append, lexLtB_cons_same]
    exact ih

theorem lexLtB_append_of_lt {x y : List Char} (h : lexLtB x y = true)
    (hlen : x.length = y.length) (u v : List Char) :
    lexLtB (x ++ u) (y ++ v) = true := by
  induction x generalizing y with
  | nil =>
    cases y with
    | nil => simp [lexLtB] at h
    | cons b bs => simp at hlen
  | cons a as ih =>
    cases y with
    | nil => simp at hlen
    | cons b bs =>
      by_cases hab : a < b
      · rw [List.cons_append, List.cons_append]
        exact lexLtB_head_lt hab _ _
      · by_cases hba : b < a
        · simp only [lexLtB, if_neg hab, if_pos hba] at h
          exact absurd h (by decide)
        · simp only [lexLtB, if_neg hab, if_neg hba] at h
          rw [List.cons_append, List.cons_append]
          simp only [lexLtB, if_neg hab, if_neg hba]
          exact ih h (by simpa using hlen)

/-! ## Claim C2: decimal digits and zero padding -/

theorem decDigitsAux_irrel :
    ∀ (f g n : Nat), n ≤ f → n ≤ g → decDigitsAux f n = decDigitsAux g n := by
  intro f
  induction f with
  | zero =>
    intro g n hf _
    obtain rfl : n = 0 := by omega
    cases g with
    | zero => rfl
    | succ g => simp [decDigitsAux]
  | succ f ih =>
    intro g n hf hg
    cases g with
    | zero =>
      obtain rfl : n = 0 := by omega
      simp [decDigitsAux]
    | succ g =>
      by_cases h10 : n < 10
      · simp [decDigitsAux, h10]
      · simp only [decDigitsAux, if_neg h10]
        congr 1
        exact ih g (n / 10) (by omega) (by omega)

theorem decDigits_rec (n : Nat) :
    decDigits n =
      if n < 10 then [digitChar n]
      else decDigits (n / 10) ++ [digitChar (n % 10)] := by
  by_cases h : n < 10
  · rw [if_pos h]
    unfold decDigits
    cases n with
    | zero => rfl
    | succ m => simp [decDigitsAux, h]
  · rw [if_neg h]
    unfold decDigits
    obtain ⟨m, rfl⟩ : ∃ m, n = m + 1 := ⟨n - 1, by omega⟩
    simp only [decDigitsAux, if_neg h]
    congr 1
    exact decDigitsAux_irrel m ((m + 1) / 10) ((m + 1) / 10) (by omega) (le_refl _)

theorem decDigits_d1 {n : Nat} (h : n < 10) : decDigits n = [digitChar n] := by
  rw [decDigits_rec, if_pos h]

theorem decDigits_d2 {n : Nat} (h1 : 10 ≤ n) (h2 : n < 100) :
    decDigits n = [digitChar (n / 10), digitChar (n % 10)] := by
  rw [decDigits_rec, if_neg (by omega), decDigits_d1 (by omega)]
  rfl

theorem decDigits_d3 {n : Nat} (h1 : 100 ≤ n) (h2 : n < 1000) :
    decDigits n = [digitChar (n / 100), digitChar (n / 10 % 10), digitChar (n % 10)] := by
  rw [decDigits_rec, if_neg (by omega), decDigits_d2 (by omega) (by omega)]
  have e : n / 10 / 10 = n / 100 := by omega
  rw [e]
  rfl

theorem decDigits_d4 {n : Nat} (h1 : 1000 ≤ n) (h2 : n < 10000) :
    decDigits n = [digitChar (n / 1000), digitChar (n / 100 % 10),
      digitChar (n / 10 % 10), digitChar (n % 10)] := by
  rw [decDigits_rec, if_neg (by omega), decDigits_d3 (by omega) (by omega)]
  have e1 : n / 10 / 100 = n / 1000 := by omega
  have e2 : n / 10 / 10 % 10 = n / 100 % 10 := by omega
  rw [e1, e2]
  rfl

theorem decDigits_d5 {n : Nat} (h1 : 10000 ≤ n) (h2 : n < 100000) :
    decDigits n = [digitChar (n / 10000), digitChar (n / 1000 % 10),
      digitChar (n / 100 % 10), digitChar (n / 10 % 10), digitChar (n % 10)] := by
  rw [decDigits_rec, if_neg (by omega), decDigits_d4 (by omega) (by omega)]
  have e1 : n / 10 / 1000 = n / 10000 := by omega
  have e2 : n / 10 / 100 % 10 = n / 1000 % 10 := by omega
  have e3 : n / 10 / 10 % 10 = n / 100 % 10 := by omega
  rw [e1, e2, e3]
  rfl

theorem digitChar_zero : digitChar 0 = '0' := by decide

theorem pad3_digits {n : Nat} (h : n < 1000) :
    (padZeros 3 (decRepr n)).data =
      [digitChar (n / 100), digitChar (n / 10 % 10), digitChar (n % 10)] := by
  by_cases h1 : n < 10
  · have e1 : n / 100 = 0 := by omega
    have e2 : n / 10 % 10 = 0 := by omega
    rw [e1, e2, digitChar_zero]
    simp [padZeros, decRepr, decDigits_d1 h1]
    congr 1
    omega
  · by_cases h2 : n < 100
    · have e1 : n / 100 = 0 := by omega
      rw [e1, digitChar_zero]
      simp [padZeros, decRepr, decDigits_d2 (by omega) h2]
      congr 1
      omega
    · simp [padZeros, decRepr, decDigits_d3 (by omega) h]

theorem pad3_len {n : Nat} (h : n < 1000) :
    (padZeros 3 (decRepr n)).data.length = 3 := by
  rw [pad3_digits h]
  rfl

theorem pad5_digits {n : Nat} (h : n < 100000) :
    (padZeros 5 (decRepr n)).data =
      [digitChar (n / 10000), digitChar (n / 1000 % 10), digitChar (n / 100 % 10),
        digitChar (n / 10 % 10), digitChar (n % 10)] := by
  by_cases h1 : n < 10
  · have e1 : n / 10000 = 0 := by omega
    have e2 : n / 1000 % 10 = 0 := by omega
    have e3 : n / 100 % 10 = 0 := by omega
    have e4 : n / 10 % 10 = 0 := by omega
    rw [e1, e2, e3, e4, digitChar_zero]
    simp [padZeros, decRepr, decDigits_d1 h1]
    congr 1
    omega
  · by_cases h2 : n < 100
    · have e1 : n / 10000 = 0 := by omega
      have e2 : n / 1000 % 10 = 0 := by omega
      have e3 : n / 100 % 10 = 0 := by omega
      rw [e1, e2, e3, digitChar_zero]
      simp [padZeros, decRepr, decDigits_d2 (by omega) h2]
      congr 1
      omega
    · by_cases h3 : n < 1000
      · have e1 : n / 10000 = 0 := by omega
        have e2 : n / 1000 % 10 = 0 := by omega
        rw [e1, e2, digitChar_zero]
        simp [padZeros, decRepr, decDigits_d3 (by omega) h3]
        congr 1
        omega
      · by_cases h4 : n < 10000
        · have e1 : n / 10000 = 0 := by omega
          rw [e1, digitChar_zero]
          simp [padZeros, decRepr, decDigits_d4 (by omega) h4]
          congr 1
          omega
        · simp [padZeros, decRepr, decDigits_d5 (by omega) h]

theorem pad5_len {n : Nat} (h : n < 100000) :
    (padZeros 5 (decRepr n)).data.length = 5 := by
  rw [pad5_digits h]
  rfl

theorem digitChar_lt : ∀ d, d < 10 → ∀ e, e < 10 → d < e → digitChar d < digitChar e := by
  decide

theorem pad3_lt {a b : Nat} (h1 : a < b) (h2 : b < 1000) :
    lexLtB (padZeros 3 (decRepr a)).data (padZeros 3 (decRepr b)).data = true := by
  rw [pad3_digits (by omega), pad3_digits h2]
  by_cases c1 : a / 100 < b / 100
  · exact lexLtB_head_lt (digitChar_lt _ (by omega) _ (by omega) c1) _ _
  · have e1 : a / 100 = b / 100 := by omega
    rw [e1, lexLtB_cons_same]
    by_cases c2 : a / 10 % 10 < b / 10 % 10
    · exact lexLtB_head_lt (digitChar_lt _ (by omega) _ (by omega) c2) _ _
    · have e2 : a / 10 % 10 = b / 10 % 10 := by omega
      rw [e2, lexLtB_cons_same]
      exact lexLtB_head_lt (digitChar_lt _ (by omega) _ (by omega) (by omega)) _ _

theorem pad5_lt {a b : Nat} (h1 : a < b) (h2 : b < 100000) :
    lexLtB (padZeros 5 (decRepr a)).data (padZeros 5 (decRepr b)).data = true := by
  rw [pad5_digits (by omega), pad5_digits h2]
  by_cases c1 : a / 10000 < b / 10000
  · exact lexLtB_head_lt (digitChar_lt _ (by omega) _ (by omega) c1) _ _
  · have e1 : a / 10000 = b / 10000 := by omega
    rw [e1, lexLtB_cons_same]
    by_cases c2 : a / 1000 % 10 < b / 1000 % 10
    · exact lexLtB_head_lt (digitChar_lt _ (by omega) _ (by omega) c2) _ _
    · have e2 : a / 1000 % 10 = b / 1000 % 10 := by omega
      rw [e2, lexLtB_cons_same]
      by_cases c3 : a / 100 % 10 < b / 100 % 10
      · exact lexLtB_head_lt (digitChar_lt _ (by omega) _ (by omega) c3) _ _
      · have e3 : a / 100 % 10 = b / 100 % 10 := by omega
        rw [e3, lexLtB_cons_same]
        by_cases c4 : a / 10 % 10 < b / 10 % 10
        · exact lexLtB_head_lt (digitChar_lt _ (by omega) _ (by omega) c4) _ _
        · have e4 : a / 10 % 10 = b / 10 % 10 := by omega
          rw [e4, lexLtB_cons_same]
          exact lexLtB_head_lt (digitChar_lt _ (by omega) _ (by omega) (by omega)) _ _

/-! ## Claim C2: tier tags and score shapes -/

theorem strData_append (s t : String) : (s ++ t).data = s.data ++ t.data := by
  cases s
  cases t
  rfl

theorem tierTag_lex {ta tb : Option SourceType} (h : tierIdx ta < tierIdx tb)
    (x y : List Char) :
    lexLtB ((tierTag ta).data ++ x) ((tierTag tb).data ++ y) = true := by
  refine lexLtB_append_of_lt ?_ ?_ x y
  · revert h
    rcases ta with _ | a <;> rcases tb with _ | b <;> (try cases a) <;> (try cases b) <;>
      decide
  · rcases ta with _ | a <;> rcases tb with _ | b <;> (try cases a) <;> (try cases b) <;>
      decide

theorem tierTag_eq_of_idx {ta tb : Option SourceType}
    (h : tierIdx ta = tierIdx tb) : tierTag ta = tierTag tb := by
  revert h
  rcases ta with _ | a <;> rcases tb with _ | b <;> (try cases a) <;> (try cases b) <;>
    decide

theorem routeTierTag_lex {ta tb : Option SourceType}
    (h : routeTierIdx ta < routeTierIdx tb) (x y : List Char) :
    lexLtB ((routeTierTag ta).data ++ x) ((routeTierTag tb).data ++ y) = true := by
  refine lexLtB_append_of_lt ?_ ?_ x y
  · revert h
    rcases ta with _ | a <;> rcases tb with _ | b <;> (try cases a) <;> (try cases b) <;>
      decide
  · rcases ta with _ | a <;> rcases tb with _ | b <;> (try cases a) <;> (try cases b) <;>
      decide

theorem routeTierTag_eq_of_idx {ta tb : Option SourceType}
    (h : routeTierIdx ta = routeTierIdx tb) : routeTierTag ta = routeTierTag tb := by
  revert h
  rcases ta with _ | a <;> rcases tb with _ | b <;> (try cases a) <;> (try cases b) <;>
    decide

theorem score_empty (s g : String) :
    (calculateMatchScore s "" g).data = g.data ++ s.data := by
  unfold calculateMatchScore
  rw [if_pos rfl, strData_append]

theorem score_band0 {s t : String} (g : String) (ht : ¬t = "")
    (h : strStartsWith s t = true) :
    (calculateMatchScore s t g).data =
      ['0', '_'] ++ ((padZeros 3 (decRepr (s.data.length - t.data.length))).data ++
        (['_'] ++ (g.data ++ s.data))) := by
  unfold calculateMatchScore
  rw [if_neg ht, if_pos h]
  rw [strData_append, strData_append, strData_append, strData_append]
  have d0 : ("0_" : String).data = ['0', '_'] := by decide
  have du : ("_" : String).data = ['_'] := by decide
  rw [d0, du]
  simp only [List.append_assoc]

theorem score_band1 {s t : String} (g : String) (ht : ¬t = "")
    (h0 : strStartsWith s t = false) (h1 : strIncludes s t = true) :
    (calculateMatchScore s t g).data = ['1', '_'] ++ (g.data ++ s.data) := by
  unfold calculateMatchScore
  rw [if_neg ht, h0, if_neg (by simp), h1, if_pos rfl]
  rw [strData_append, strData_append]
  have d1 : ("1_" : String).data = ['1', '_'] := by decide
  rw [d1]
  simp only [List.append_assoc]

theorem score_band2 {s t : String} (g : String) (ht : ¬t = "")
    (h0 : strStartsWith s t = false) (h1 : strIncludes s t = false) :
    (calculateMatchScore s t g).data = ['2', '_'] ++ (g.data ++ s.data) := by
  unfold calculateMatchScore
  rw [if_neg ht, h0, if_neg (by simp), h1, if_neg (by simp)]
  rw [strData_append, strData_append]
  have d2 : ("2_" : String).data = ['2', '_'] := by decide
  rw [d2]
  simp only [List.append_assoc]

theorem rscore_empty (r g : String) :
    (calculateRouteMatchScore r "" g).data = g.data ++ (['_'] ++ r.data) := by
  unfold calculateRouteMatchScore
  rw [if_pos rfl, strData_append, strData_append]
  have du : ("_" : String).data = ['_'] := by decide
  rw [du]
  simp only [List.append_assoc]

theorem rscore_band0 {r t : String} (g : String) (ht : ¬t = "")
    (h : strLower r = strLower t) :
    (calculateRouteMatchScore r t g).data = g.data ++ (['_', '0', '_'] ++ r.data) := by
  unfold calculateRouteMatchScore
  rw [if_neg ht, if_pos h]
  rw [strData_append, strData_append]
  have d : ("_0_" : String).data = ['_', '0', '_'] := by decide
  rw [d]
  simp only [List.append_assoc]

theorem rscore_band1 {r t : String} (g : String) (ht : ¬t = "")
    (h0 : ¬strLower r = strLower t)
    (h1 : strStartsWith (strLower r) (strLower t) = true) :
    (calculateRouteMatchScore r t g).data =
      g.data ++ (['_', '1', '_'] ++
        ((padZeros 5 (decRepr (r.data.length - t.data.length))).data ++
          (['_'] ++ r.data))) := by
  unfold calculateRouteMatchScore
  rw [if_neg ht, if_neg h0, if_pos h1]
  rw [strData_append, strData_append, strData_append, strData_append]
  have d : ("_1_" : String).data = ['_', '1', '_'] := by decide
  have du : ("_" : String).data = ['_'] := by decide
  rw [d, du]
  simp only [List.append_assoc]

theorem rscore_band2 {r t : String} (g : String) (ht : ¬t = "")
    (h0 : ¬strLower r = strLower t)
    (h1 : strStartsWith (strLower r) (strLower t) = false) :
    (calculateRouteMatchScore r t g).data = g.data ++ (['_', '2', '_'] ++ r.data) := by
  unfold calculateRouteMatchScore
  rw [if_neg ht, if_neg h0, h1, if_neg (by simp)]
  rw [strData_append, strData_append]
  have d : ("_2_" : String).data = ['_', '2', '_'] := by decide
  rw [d]
  simp only [List.append_assoc]

theorem matchBand_le_two (s t : String) : matchBand s t ≤ 2 := by
  unfold matchBand
  split_ifs <;> omega

theorem of_matchBand_zero {s t : String} (h : matchBand s t = 0) :
    strStartsWith s t = true := by
  unfold matchBand at h
  by_cases h1 : strStartsWith s t = true
  · exact h1
  · rw [if_neg h1] at h
    by_cases h2 : strIncludes s t = true
    · rw [if_pos h2] at h; omega
    · rw [if_neg h2] at h; omega

theorem of_matchBand_one {s t : String} (h : matchBand s t = 1) :
    strStartsWith s t = false ∧ strIncludes s t = true := by
  unfold matchBand at h
  by_cases h1 : strStartsWith s t = true
  · rw [if_pos h1] at h; omega
  · rw [if_neg h1] at h
    by_cases h2 : strIncludes s t = true
    · exact ⟨by simpa using h1, h2⟩
    · rw [if_neg h2] at h; omega

theorem of_matchBand_two {s t : String} (h : matchBand s t = 2) :
    strStartsWith s t = false ∧ strIncludes s t = false := by
  unfold matchBand at h
  by_cases h1 : strStartsWith s t = true
  · rw [if_pos h1] at h; omega
  · rw [if_neg h1] at h
    by_cases h2 : strIncludes s t = true
    · rw [if_pos h2] at h; omega
    · exact ⟨by simpa using h1, by simpa using h2⟩

theorem routeBand_le_two (r t : String) : routeBand r t ≤ 2 := by
  unfold routeBand
  split_ifs <;> omega

theorem of_routeBand_zero {r t : String} (h : routeBand r t = 0) :
    strLower r = strLower t := by
  unfold routeBand at h
  by_cases h1 : strLower r = strLower t
  · exact h1
  · rw [if_neg h1] at h
    by_cases h2 : strStartsWith (strLower r) (strLower t) = true
    · rw [if_pos h2] at h; omega
    · rw [if_neg h2] at h; omega

theorem of_routeBand_one {r t : String} (h : routeBand r t = 1) :
    ¬strLower r = strLower t ∧ strStartsWith (strLower r) (strLower t) = true := by
  unfold routeBand at h
  by_cases h1 : strLower r = strLower t
  · rw [if_pos h1] at h; omega
  · rw [if_neg h1] at h
    by_cases h2 : strStartsWith (strLower r) (strLower t) = true
    · exact ⟨h1, h2⟩
    · rw [if_neg h2] at h; omega

theorem of_routeBand_two {r t : String} (h : routeBand r t = 2) :
    ¬strLower r = strLower t ∧ strStartsWith (strLower r) (strLower t) = false := by
  unfold routeBand at h
  by_cases h1 : strLower r = strLower t
  · rw [if_pos h1] at h; omega
  · rw [if_neg h1] at h
    by_cases h2 : strStartsWith (strLower r) (strLower t) = true
    · rw [if_pos h2] at h; omega
    · exact ⟨h1, by simpa using h2⟩

theorem rscore_shape (r t g : String) :
    ∃ X, (calculateRouteMatchScore r t g).data = g.data ++ X := by
  by_cases ht : t = ""
  · subst ht
    exact ⟨_, rscore_empty r g⟩
  · have h3 := routeBand_le_two r t
    have hc : routeBand r t = 0 ∨ routeBand r t = 1 ∨ routeBand r t = 2 := by omega
    rcases hc with h0 | h0 | h0
    · exact ⟨_, rscore_band0 g ht (of_routeBand_zero h0)⟩
    · obtain ⟨h1, h2⟩ := of_routeBand_one h0
      exact ⟨_, rscore_band1 g ht h1 h2⟩
    · obtain ⟨h1, h2⟩ := of_routeBand_two h0
      exact ⟨_, rscore_band2 g ht h1 h2⟩

/-- Claim C2 (amended): the emitted `sortText` keys, compared in the
client's lexicographic order (`keyLt`), rank candidates as follows.
Service completions with a nonempty typed prefix order primarily by
match band — prefix matches (an exact match is the prefix match with
remaining suffix length 0) before substring-contains matches before all
others — with prefix matches ordered by ascending remaining suffix
length within the 3-digit zero-padded field (remainders below 1000);
the tier (custom before contrib before core before unknown) is only the
secondary key inside a band, and the candidate's name is the final
tie-break; with nothing typed, tier is primary and the name breaks
ties.  Route completions order primarily by tier (custom before contrib
before core, with unknown grouped with core), then case-insensitive
exact match, then case-insensitive prefix matches by ascending remaining
suffix length (below 100000), then a single last band holding both
substring matches and non-matches, with the name as final tie-break. -/
theorem C2_sort_key_order (a b t : String) (ta tb : Option SourceType) :
    (t ≠ "" → matchBand a t < matchBand b t →
      keyLt (calculateMatchScore a t (tierTag ta))
        (calculateMatchScore b t (tierTag tb))) ∧
    (t ≠ "" → matchBand a t = 0 → matchBand b t = 0 →
      a.data.length - t.data.length < b.data.length - t.data.length →
      b.data.length - t.data.length < 1000 →
      keyLt (calculateMatchScore a t (tierTag ta))
        (calculateMatchScore b t (tierTag tb))) ∧
    (t ≠ "" → matchBand a t = matchBand b t →
      (matchBand a t = 0 →
        a.data.length - t.data.length = b.data.length - t.data.length) →
      tierIdx ta < tierIdx tb →
      keyLt (calculateMatchScore a t (tierTag ta))
        (calculateMatchScore b t (tierTag tb))) ∧
    (t ≠ "" → matchBand a t = matchBand b t →
      (matchBand a t = 0 →
        a.data.length - t.data.length = b.data.length - t.data.length) →
      ta = tb → keyLt a b →
      keyLt (calculateMatchScore a t (tierTag ta))
        (calculateMatchScore b t (tierTag tb))) ∧
    (tierIdx ta < tierIdx tb →
      keyLt (calculateMatchScore a "" (tierTag ta))
        (calculateMatchScore b "" (tierTag tb))) ∧
    (ta = tb → keyLt a b →
      keyLt (calculateMatchScore a "" (tierTag ta))
        (calculateMatchScore b "" (tierTag tb))) ∧
    (routeTierIdx ta < routeTierIdx tb →
      keyLt (calculateRouteMatchScore a t (routeTierTag ta))
        (calculateRouteMatchScore b t (routeTierTag tb))) ∧
    (t ≠ "" → routeTierIdx ta = routeTierIdx tb →
      routeBand a t < routeBand b t →
      keyLt (calculateRouteMatchScore a t (routeTierTag ta))
        (calculateRouteMatchScore b t (routeTierTag tb))) ∧
    (t ≠ "" → routeTierIdx ta = routeTierIdx tb →
      routeBand a t = 1 → routeBand b t = 1 →
      a.data.length - t.data.length < b.data.length - t.data.length →
      b.data.length - t.data.length < 100000 →
      keyLt (calculateRouteMatchScore a t (routeTierTag ta))
        (calculateRouteMatchScore b t (routeTierTag tb))) ∧
    (t ≠ "" → routeTierIdx ta = routeTierIdx tb →
      routeBand a t = routeBand b t →
      (routeBand a t = 1 →
        a.data.length - t.data.length = b.data.length - t.data.length) →
      keyLt a b →
      keyLt (calculateRouteMatchScore a t (routeTierTag ta))
        (calculateRouteMatchScore b t (routeTierTag tb))) ∧
    (t = "" → routeTierIdx ta = routeTierIdx tb → keyLt a b →
      keyLt (calculateRouteMatchScore a t (routeTierTag ta))
        (calculateRouteMatchScore b t (routeTierTag tb))) := by
  refine ⟨?_, ?_, ?_, ?_, ?_, ?_, ?_, ?_, ?_, ?_, ?_⟩
  · -- service: band is the primary key
    intro ht hlt
    have hA := matchBand_le_two a t
    have hB := matchBand_le_two b t
    unfold keyLt
    have hc : (matchBand a t = 0 ∧ matchBand b t = 1) ∨
        (matchBand a t = 0 ∧ matchBand b t = 2) ∨
        (matchBand a t = 1 ∧ matchBand b t = 2) := by omega
    rcases hc with ⟨h0, h1⟩ | ⟨h0, h1⟩ | ⟨h0, h1⟩
    · obtain ⟨hb0, hb1⟩ := of_matchBand_one h1
      rw [score_band0 (tierTag ta) ht (of_matchBand_zero h0),
        score_band1 (tierTag tb) ht hb0 hb1]
      exact lexLtB_append_of_lt (by decide) (by decide) _ _
    · obtain ⟨hb0, hb1⟩ := of_matchBand_two h1
      rw [score_band0 (tierTag ta) ht (of_matchBand_zero h0),
        score_band2 (tierTag tb) ht hb0 hb1]
      exact lexLtB_append_of_lt (by decide) (by decide) _ _
    · obtain ⟨ha0, ha1⟩ := of_matchBand_one h0
      obtain ⟨hb0, hb1⟩ := of_matchBand_two h1
      rw [score_band1 (tierTag ta) ht ha0 ha1,
        score_band2 (tierTag tb) ht hb0 hb1]
      exact lexLtB_append_of_lt (by decide) (by decide) _ _
  · -- service: ascending remaining suffix length inside the prefix band
    intro ht h0a h0b hlt hub
    unfold keyLt
    rw [score_band0 (tierTag ta) ht (of_matchBand_zero h0a),
      score_band0 (tierTag tb) ht (of_matchBand_zero h0b),
      lexLtB_append_same]
    exact lexLtB_append_of_lt (pad3_lt hlt hub)
      (by rw [pad3_len (by omega), pad3_len hub]) _ _
  · -- service: tier is the secondary key inside a band
    intro ht hband hrem htier
    have hA := matchBand_le_two a t
    have hc : matchBand a t = 0 ∨ matchBand a t = 1 ∨ matchBand a t = 2 := by omega
    unfold keyLt
    rcases hc with h0 | h0 | h0
    · have h0b : matchBand b t = 0 := by omega
      have hre := hrem h0
      rw [score_band0 (tierTag ta) ht (of_matchBand_zero h0),
        score_band0 (tierTag tb) ht (of_matchBand_zero h0b), ← hre,
        lexLtB_append_same, lexLtB_append_same, lexLtB_append_same]
      exact tierTag_lex htier _ _
    · have h0b : matchBand b t = 1 := by omega
      obtain ⟨ha0, ha1⟩ := of_matchBand_one h0
      obtain ⟨hb0, hb1⟩ := of_matchBand_one h0b
      rw [score_band1 (tierTag ta) ht ha0 ha1,
        score_band1 (tierTag tb) ht hb0 hb1, lexLtB_append_same]
      exact tierTag_lex htier _ _
    · have h0b : matchBand b t = 2 := by omega
      obtain ⟨ha0, ha1⟩ := of_matchBand_two h0
      obtain ⟨hb0, hb1⟩ := of_matchBand_two h0b
      rw [score_band2 (tierTag ta) ht ha0 ha1,
        score_band2 (tierTag tb) ht hb0 hb1, lexLtB_append_same]
      exact tierTag_lex htier _ _
  · -- service: the name is the final tie-break
    intro ht hband hrem heq hname
    subst heq
    have hA := matchBand_le_two a t
    have hc : matchBand a t = 0 ∨ matchBand a t = 1 ∨ matchBand a t = 2 := by omega
    unfold keyLt
    unfold keyLt at hname
    rcases hc with h0 | h0 | h0
    · have h0b : matchBand b t = 0 := by omega
      have hre := hrem h0
      rw [score_band0 (tierTag ta) ht (of_matchBand_zero h0),
        score_band0 (tierTag ta) ht (of_matchBand_zero h0b), ← hre,
        lexLtB_append_same, lexLtB_append_same, lexLtB_append_same,
        lexLtB_append_same]
      exact hname
    · have h0b : matchBand b t = 1 := by omega
      obtain ⟨ha0, ha1⟩ := of_matchBand_one h0
      obtain ⟨hb0, hb1⟩ := of_matchBand_one h0b
      rw [score_band1 (tierTag ta) ht ha0 ha1,
        score_band1 (tierTag ta) ht hb0 hb1, lexLtB_append_same,
        lexLtB_append_same]
      exact hname
    · have h0b : matchBand b t = 2 := by omega
      obtain ⟨ha0, ha1⟩ := of_matchBand_two h0
      obtain ⟨hb0, hb1⟩ := of_matchBand_two h0b
      rw [score_band2 (tierTag ta) ht ha0 ha1,
        score_band2 (tierTag ta) ht hb0 hb1, lexLtB_append_same,
        lexLtB_append_same]
      exact hname
  · -- service, nothing typed: tier is primary
    intro htier
    unfold keyLt
    rw [score_empty, score_empty]
    exact tierTag_lex htier _ _
  · -- service, nothing typed: name tie-break
    intro heq hname
    subst heq
    unfold keyLt
    unfold keyLt at hname
    rw [score_empty, score_empty, lexLtB_append_same]
    exact hname
  · -- route: tier is the primary key
    intro htier
    unfold keyLt
    obtain ⟨X, hX⟩ := rscore_shape a t (routeTierTag ta)
    obtain ⟨Y, hY⟩ := rscore_shape b t (routeTierTag tb)
    rw [hX, hY]
    exact routeTierTag_lex htier _ _
  · -- route: band is the secondary key
    intro ht htieq hblt
    have htag := routeTierTag_eq_of_idx htieq
    have hA := routeBand_le_two a t
    have hB := routeBand_le_two b t
    unfold keyLt
    have hc : (routeBand a t = 0 ∧ routeBand b t = 1) ∨
        (routeBand a t = 0 ∧ routeBand b t = 2) ∨
        (routeBand a t = 1 ∧ routeBand b t = 2) := by omega
    rcases hc with ⟨h0, h1⟩ | ⟨h0, h1⟩ | ⟨h0, h1⟩
    · obtain ⟨hb0, hb1⟩ := of_routeBand_one h1
      rw [rscore_band0 (routeTierTag ta) ht (of_routeBand_zero h0),
        rscore_band1 (routeTierTag tb) ht hb0 hb1, htag, lexLtB_append_same]
      exact lexLtB_append_of_lt (by decide) (by decide) _ _
    · obtain ⟨hb0, hb1⟩ := of_routeBand_two h1
      rw [rscore_band0 (routeTierTag ta) ht (of_routeBand_zero h0),
        rscore_band2 (routeTierTag tb) ht hb0 hb1, htag, lexLtB_append_same]
      exact lexLtB_append_of_lt (by decide) (by decide) _ _
    · obtain ⟨ha0, ha1⟩ := of_routeBand_one h0
      obtain ⟨hb0, hb1⟩ := of_routeBand_two h1
      rw [rscore_band1 (routeTierTag ta) ht ha0 ha1,
        rscore_band2 (routeTierTag tb) ht hb0 hb1, htag, lexLtB_append_same]
      exact lexLtB_append_of_lt (by decide) (by decide) _ _
  · -- route: ascending remaining suffix length inside the prefix band
    intro ht htieq h1a h1b hlt hub
    have htag := routeTierTag_eq_of_idx htieq
    obtain ⟨ha0, ha1⟩ := of_routeBand_one h1a
    obtain ⟨hb0, hb1⟩ := of_routeBand_one h1b
    unfold keyLt
    rw [rscore_band1 (routeTierTag ta) ht ha0 ha1,
      rscore_band1 (routeTierTag tb) ht hb0 hb1, htag, lexLtB_append_same,
      lexLtB_append_same]
    exact lexLtB_append_of_lt (pad5_lt hlt hub)
      (by rw [pad5_len (by omega), pad5_len hub]) _ _
  · -- route: the name is the final tie-break
    intro ht htieq hbeq hrem hname
    have htag := routeTierTag_eq_of_idx htieq
    have hA := routeBand_le_two a t
    have hc : routeBand a t = 0 ∨ routeBand a t = 1 ∨ routeBand a t = 2 := by omega
    unfold keyLt
    unfold keyLt at hname
    rcases hc with h0 | h0 | h0
    · have h0b : routeBand b t = 0 := by omega
      rw [rscore_band0 (routeTierTag ta) ht (of_routeBand_zero h0),
        rscore_band0 (routeTierTag tb) ht (of_routeBand_zero h0b), htag,
        lexLtB_append_same, lexLtB_append_same]
      exact hname
    · have h0b : routeBand b t = 1 := by omega
      have hre := hrem h0
      obtain ⟨ha0, ha1⟩ := of_routeBand_one h0
      obtain ⟨hb0, hb1⟩ := of_routeBand_one h0b
      rw [rscore_band1 (routeTierTag ta) ht ha0 ha1,
        rscore_band1 (routeTierTag tb) ht hb0 hb1, htag, ← hre,
        lexLtB_append_same, lexLtB_append_same, lexLtB_append_same,
        lexLtB_append_same]
      exact hname
    · have h0b : routeBand b t = 2 := by omega
      obtain ⟨ha0, ha1⟩ := of_routeBand_two h0
      obtain ⟨hb0, hb1⟩ := of_routeBand_two h0b
      rw [rscore_band2 (routeTierTag ta) ht ha0 ha1,
        rscore_band2 (routeTierTag tb) ht hb0 hb1, htag,
        lexLtB_append_same, lexLtB_append_same]
      exact hname
  · -- route, nothing typed: name tie-break within a tier
    intro hteq htieq hname
    subst hteq
    have htag := routeTierTag_eq_of_idx htieq
    unfold keyLt
    unfold keyLt at hname
    rw [rscore_empty, rscore_empty, htag, lexLtB_append_same,
      lexLtB_append_same]
    exact hname

/-- Claim C2, counterexample: with typed prefix `foo`, the core-tier
prefix-matching service `foo.bar` sorts strictly before the custom-tier
non-matching service `zzz` — the match band, not the tier, is the
primary key for service completions. -/
theorem C2_counterexample :
    tierIdx (some SourceType.custom) < tierIdx (some SourceType.core) ∧
    keyLt (calculateMatchScore "foo.bar" "foo" (tierTag (some SourceType.core)))
      (calculateMatchScore "zzz" "foo" (tierTag (some SourceType.custom))) ∧
    ¬keyLt (calculateMatchScore "zzz" "foo" (tierTag (some SourceType.custom)))
      (calculateMatchScore "foo.bar" "foo" (tierTag (some SourceType.core))) := by
  refine ⟨by decide, by decide, by decide⟩

/-- Claim C2, witness. -/
theorem C2_witness :
    keyLt (calculateMatchScore "zebra.alpha" "zeb" (tierTag (some SourceType.core)))
      (calculateMatchScore "custom.thing" "zeb" (tierTag (some SourceType.custom))) ∧
    keyLt (calculateRouteMatchScore "aaa" "q" (routeTierTag (some SourceType.custom)))
      (calculateRouteMatchScore "qqq" "q" (routeTierTag (some SourceType.core))) :=
  ⟨(C2_sort_key_order "zebra.alpha" "custom.thing" "zeb"
      (some SourceType.core) (some SourceType.custom)).1 (by decide) (by decide),
   (C2_sort_key_order "aaa" "qqq" "q"
      (some SourceType.custom) (some SourceType.core)).2.2.2.2.2.2.1 (by decide)⟩

/-! ## Claim C4 -/

/-- Claim C4, counterexample: on the exact line `->get('cache.backend')`
the extractor returns no match at every offset inside `cache`
(offsets 7–11), because pattern 2 requires a `$this`/`$container`
receiver in front of `->get`. -/
theorem C4_counterexample :
    extractServiceName "->get('cache.backend')" 7 = none ∧
    extractServiceName "->get('cache.backend')" 8 = none ∧
    extractServiceName "->get('cache.backend')" 9 = none ∧
    extractServiceName "->get('cache.backend')" 10 = none ∧
    extractServiceName "->get('cache.backend')" 11 = none ∧
    ((none : Option String) ≠ some "cache.backend") := by
  refine ⟨by decide, by decide, by decide, by decide, by decide, by decide⟩

/-- Claim C4 (amended): on the line `$this->get('cache.backend')` —
pattern 2 needs the receiver — the cursor at any offset inside `cache`
(offsets 12–16) extracts `cache.backend`, and at an offset inside the
`->` (offsets 5–6) extracts nothing. -/
theorem C4_extraction_under_cursor (c : Nat) :
    (12 ≤ c → c ≤ 16 →
      extractServiceName "$this->get('cache.backend')" c = some "cache.backend") ∧
    (5 ≤ c → c ≤ 6 →
      extractServiceName "$this->get('cache.backend')" c = none) := by
  constructor
  · intro h1 h2
    interval_cases c <;> decide
  · intro h1 h2
    interval_cases c <;> decide

/-- Claim C4, witness. -/
theorem C4_witness :
    extractServiceName "$this->get('cache.backend')" 13 = some "cache.backend" ∧
    extractServiceName "$this->get('cache.backend')" 5 = none :=
  ⟨(C4_extraction_under_cursor 13).1 (by decide) (by decide),
   (C4_extraction_under_cursor 5).2 (by decide) (by decide)⟩

/-! ## Claim C5: lemmas about the scanners on symbolic service names -/

theorem svcChars_fact :
    ∀ c ∈ svcNameChars, isSvcNameCh c = true ∧ isQuoteCh c = false ∧
      isWsCh c = false ∧ ¬lowerChar c = ':' ∧ ¬lowerChar c = '$' ∧ ¬c = ',' := by
  decide

theorem takeWhile_all {p : Char → Bool} {l : List Char}
    (h : ∀ c ∈ l, p c = true) : l.takeWhile p = l := by
  induction l with
  | nil => rfl
  | cons c cs ih =>
    rw [List.takeWhile_cons, if_pos (h c (by simp)),
      ih (fun x hx => h x (by simp [hx]))]

theorem dropWhile_all {p : Char → Bool} {l : List Char}
    (h : ∀ c ∈ l, p c = true) : l.dropWhile p = [] := by
  induction l with
  | nil => rfl
  | cons c cs ih =>
    rw [List.dropWhile_cons, if_pos (h c (by simp))]
    exact ih (fun x hx => h x (by simp [hx]))

theorem takeWhile_append_all {p : Char → Bool} {l : List Char} (r : List Char)
    (h : ∀ c ∈ l, p c = true) : (l ++ r).takeWhile p = l ++ r.takeWhile p := by
  induction l with
  | nil => simp
  | cons c cs ih =>
    rw [List.cons_append, List.takeWhile_cons, if_pos (h c (by simp)),
      ih (fun x hx => h x (by simp [hx])), List.cons_append]

theorem dropWhile_append_all {p : Char → Bool} {l : List Char} (r : List Char)
    (h : ∀ c ∈ l, p c = true) : (l ++ r).dropWhile p = r.dropWhile p := by
  induction l with
  | nil => simp
  | cons c cs ih =>
    rw [List.cons_append, List.dropWhile_cons, if_pos (h c (by simp))]
    exact ih (fun x hx => h x (by simp [hx]))

theorem stripLitCI_self (p r : List Char) : stripLitCI p (p ++ r) = some (p, r) := by
  induction p with
  | nil => rfl
  | cons c cs ih =>
    simp [stripLitCI, List.append_eq, ih]

theorem stripLitCS_self (p r : List Char) : stripLitCS p (p ++ r) = some r := by
  induction p with
  | nil => rfl
  | cons c cs ih =>
    simp [stripLitCS, List.append_eq, ih]

theorem scanFrom_pos {m : List Char → Option (List Char × List Char × List Char)}
    {s : List Char} {v} (h : m s = some v) (i : Nat) :
    scanFrom m i s = some (i, v.1, v.2.1, v.2.2) := by
  cases s with
  | nil => rw [scanFrom, h]; rfl
  | cons c t => rw [scanFrom, h]; rfl

theorem scanFrom_step {m : List Char → Option (List Char × List Char × List Char)}
    {c : Char} {t : List Char} (h : m (c :: t) = none) (i : Nat) :
    scanFrom m i (c :: t) = scanFrom m (i + 1) t := by
  rw [scanFrom, h]
  rfl

theorem scanFrom_none_all {m : List Char → Option (List Char × List Char × List Char)}
    (hnil : m [] = none) :
    ∀ (i : Nat) (s : List Char), (∀ c ∈ s, ∀ t, m (c :: t) = none) →
      scanFrom m i s = none := by
  intro i s
  induction s generalizing i with
  | nil => intro _; rw [scanFrom, hnil]; rfl
  | cons c cs ih =>
    intro h
    rw [scanFrom_step (h c (by simp) cs)]
    exact ih (i + 1) (fun x hx t => h x (by simp [hx]) t)

theorem execGo_nil {m : List Char → Option (List Char × List Char × List Char)}
    (hnil : m [] = none) (fuel i : Nat) : execGo m fuel i [] = [] := by
  cases fuel with
  | zero => rfl
  | succ f =>
    have h : scanFrom m i [] = none := by rw [scanFrom, hnil]; rfl
    rw [execGo, h]
    rfl

theorem execGo_cons {m : List Char → Option (List Char × List Char × List Char)}
    {i : Nat} {s : List Char} {j : Nat} {f n r : List Char}
    (h : scanFrom m i s = some (j, f, n, r)) (fuel : Nat) :
    execGo m (fuel + 1) i s = (j, f, n) :: execGo m fuel (j + f.length) r := by
  rw [execGo, h]
  rfl

theorem execAll_single {m : List Char → Option (List Char × List Char × List Char)}
    {s f n : List Char} (hm : m s = some (f, n, ([] : List Char)))
    (hnil : m [] = none) :
    execAll m s = [(0, f, n)] := by
  unfold execAll
  rw [execGo_cons (scanFrom_pos hm 0), execGo_nil hnil]

theorem execAll_none {m : List Char → Option (List Char × List Char × List Char)}
    {s : List Char} (hnil : m [] = none)
    (h : ∀ c ∈ s, ∀ t, m (c :: t) = none) :
    execAll m s = [] := by
  unfold execAll
  rw [execGo, scanFrom_none_all hnil 0 s h]
  rfl

theorem matchLitThen_self {lit : String}
    {tail : List Char → Option (List Char × List Char × List Char)}
    {r : List Char} {v} (ht : tail r = some v) :
    matchLitThen lit tail (lit.data ++ r) =
      some (lit.data ++ v.1, v.2.1, v.2.2) := by
  unfold matchLitThen
  rw [stripLitCI_self]
  dsimp only
  rw [ht]

theorem matchLitThen_self_none {lit : String}
    {tail : List Char → Option (List Char × List Char × List Char)}
    {r : List Char} (ht : tail r = none) :
    matchLitThen lit tail (lit.data ++ r) = none := by
  unfold matchLitThen
  rw [stripLitCI_self]
  dsimp only
  rw [ht]

theorem matchLitThen_head_ne {lit : String} {p : Char} {ps : List Char}
    (hd : lit.data = p :: ps) {c : Char} (h : ¬lowerChar c = lowerChar p)
    (tail : List Char → Option (List Char × List Char × List Char))
    (t : List Char) : matchLitThen lit tail (c :: t) = none := by
  unfold matchLitThen
  rw [hd]
  simp only [stripLitCI]
  rw [if_neg h]

theorem matchP1At_head_ne {c : Char} (h : ¬lowerChar c = ':') (nc : Bool)
    (t : List Char) : matchP1At nc (c :: t) = none := by
  unfold matchP1At
  refine matchLitThen_head_ne
    (by decide : ("::service" : String).data =
      ':' :: [':', 's', 'e', 'r', 'v', 'i', 'c', 'e']) ?_ _ _
  rw [(by decide : lowerChar ':' = ':')]
  exact h

theorem matchP2At_head_ne {c : Char} (h : ¬lowerChar c = '$') (nc : Bool)
    (t : List Char) : matchP2At nc (c :: t) = none := by
  have h' : ¬lowerChar c = lowerChar '$' := by
    rw [(by decide : lowerChar '$' = '$')]
    exact h
  unfold matchP2At
  rw [matchLitThen_head_ne
      (by decide : ("$this->get" : String).data = '$' :: "this->get".data) h',
    matchLitThen_head_ne
      (by decide : ("$container->get" : String).data =
        '$' :: "container->get".data) h',
    matchLitThen_head_ne
      (by decide : ("$this->container->get" : String).data =
        '$' :: "this->container->get".data) h']
  rfl

theorem execAll_P1_none {s : List Char} (h : ∀ c ∈ s, ¬lowerChar c = ':')
    (nc : Bool) : execAll (matchP1At nc) s = [] :=
  execAll_none rfl (fun c hc t => matchP1At_head_ne (h c hc) nc t)

theorem execAll_P2_none {s : List Char} (h : ∀ c ∈ s, ¬lowerChar c = '$')
    (nc : Bool) : execAll (matchP2At nc) s = [] :=
  execAll_none rfl (fun c hc t => matchP2At_head_ne (h c hc) nc t)

/-! jsIndexOf lemmas (the computed span survives appending text after the
match). -/

theorem jsIndexOf_cons (c : Char) (cs pat : List Char) :
    jsIndexOf (c :: cs) pat =
      if jsStartsWithL (c :: cs) pat then 0
      else if jsIndexOf cs pat < 0 then -1 else jsIndexOf cs pat + 1 := rfl

theorem jsStartsWithL_append {l pat : List Char} (r : List Char)
    (h : jsStartsWithL l pat = true) : jsStartsWithL (l ++ r) pat = true := by
  induction pat generalizing l with
  | nil => simp [jsStartsWithL]
  | cons p ps ih =>
    cases l with
    | nil => simp [jsStartsWithL] at h
    | cons c cs =>
      simp only [List.cons_append, jsStartsWithL, Bool.and_eq_true,
        decide_eq_true_eq] at h ⊢
      exact ⟨h.1, ih h.2⟩

theorem jsStartsWithL_le {l pat : List Char} (h : jsStartsWithL l pat = true) :
    pat.length ≤ l.length := by
  induction pat generalizing l with
  | nil => simp
  | cons p ps ih =>
    cases l with
    | nil => simp [jsStartsWithL] at h
    | cons c cs =>
      simp only [jsStartsWithL, Bool.and_eq_true, decide_eq_true_eq] at h
      have := ih h.2
      simp only [List.length_cons]
      omega

theorem jsStartsWithL_append_eq {pat : List Char} :
    ∀ {l : List Char} (r : List Char), pat.length ≤ l.length →
      jsStartsWithL (l ++ r) pat = jsStartsWithL l pat := by
  induction pat with
  | nil => intro l r _; simp [jsStartsWithL]
  | cons p ps ih =>
    intro l r hlen
    cases l with
    | nil => simp at hlen
    | cons c cs =>
      simp only [List.cons_append, jsStartsWithL, List.append_eq]
      rw [ih r (l := cs) (by simp only [List.length_cons] at hlen; omega)]

theorem jsStartsWithL_self_append (pat v : List Char) :
    jsStartsWithL (pat ++ v) pat = true := by
  induction pat with
  | nil => simp [jsStartsWithL]
  | cons p ps ih =>
    simp only [List.cons_append, jsStartsWithL, Bool.and_eq_true,
      decide_eq_true_eq]
    exact ⟨trivial, ih⟩

theorem jsIndexOf_nonneg (u pat v : List Char) :
    0 ≤ jsIndexOf (u ++ (pat ++ v)) pat := by
  induction u with
  | nil =>
    rw [List.nil_append]
    cases hpv : pat ++ v with
    | nil =>
      have hp : pat = [] := by cases pat <;> simp_all
      subst hp
      simp [jsIndexOf, jsStartsWithL]
    | cons c cs =>
      have hs : jsStartsWithL (pat ++ v) pat = true := jsStartsWithL_self_append pat v
      rw [hpv] at hs
      rw [jsIndexOf_cons, if_pos hs]
  | cons a u' ih =>
    rw [List.cons_append, jsIndexOf_cons]
    by_cases hs : jsStartsWithL (a :: (u' ++ (pat ++ v))) pat = true
    · rw [if_pos hs]
    · rw [if_neg hs, if_neg (by omega)]
      omega

theorem jsIndexOf_bound :
    ∀ (l pat : List Char), 0 ≤ jsIndexOf l pat →
      jsIndexOf l pat + (pat.length : Int) ≤ (l.length : Int) := by
  intro l
  induction l with
  | nil =>
    intro pat h
    cases pat with
    | nil => simp [jsIndexOf, jsStartsWithL]
    | cons p ps => simp [jsIndexOf, jsStartsWithL] at h
  | cons c cs ih =>
    intro pat h
    rw [jsIndexOf_cons] at h ⊢
    by_cases hs : jsStartsWithL (c :: cs) pat = true
    · rw [if_pos hs]
      have hle := jsStartsWithL_le hs
      simp only [List.length_cons] at hle ⊢
      push_cast at hle ⊢
      omega
    · rw [if_neg hs] at h ⊢
      by_cases hr : jsIndexOf cs pat < 0
      · rw [if_pos hr] at h
        omega
      · rw [if_neg hr] at h ⊢
        have hle := ih pat (by omega)
        simp only [List.length_cons]
        push_cast at hle ⊢
        omega

theorem jsIndexOf_append {l pat : List Char} (r : List Char)
    (h : 0 ≤ jsIndexOf l pat) : jsIndexOf (l ++ r) pat = jsIndexOf l pat := by
  induction l with
  | nil =>
    cases pat with
    | nil =>
      rw [List.nil_append]
      cases r with
      | nil => rfl
      | cons c cs =>
        rw [jsIndexOf_cons, if_pos (by simp [jsStartsWithL])]
        rfl
    | cons p ps => simp [jsIndexOf, jsStartsWithL] at h
  | cons c cs ih =>
    rw [List.cons_append, jsIndexOf_cons, jsIndexOf_cons]
    by_cases hs : jsStartsWithL (c :: cs) pat = true
    · rw [if_pos hs,
        if_pos (by rw [← List.cons_append]; exact jsStartsWithL_append r hs)]
    · rw [jsIndexOf_cons, if_neg hs] at h
      by_cases hr : jsIndexOf cs pat < 0
      · rw [if_pos hr] at h
        omega
      · rw [if_neg hr] at h
        have hlen : pat.length ≤ cs.length := by
          have hb := jsIndexOf_bound cs pat (by omega)
          omega
        have hs2 : jsStartsWithL (c :: (cs ++ r)) pat = jsStartsWithL (c :: cs) pat := by
          rw [← List.cons_append]
          exact jsStartsWithL_append_eq r (by simp only [List.length_cons]; omega)
        rw [if_neg (by rw [hs2]; exact hs), ih (by omega), if_neg hr, if_neg hs]

theorem toCall_append {j : Nat} {f nd : List Char} (r : List Char)
    (h : 0 ≤ jsIndexOf f nd) : toCall (j, f ++ r, nd) = toCall (j, f, nd) := by
  unfold toCall
  rw [jsIndexOf_append r h]

theorem matchSvcTail_open {nd : List Char} (hne : nd ≠ [])
    (hsv : ∀ c ∈ nd, isSvcNameCh c = true) :
    matchSvcTail isSvcNameCh false ('(' :: quoteChar :: nd) =
      some ('(' :: quoteChar :: nd, nd, []) := by
  have e1 : ('(' :: quoteChar :: nd).takeWhile isWsCh = [] := by
    rw [List.takeWhile_cons, if_neg (by decide)]
  have e2 : ('(' :: quoteChar :: nd).dropWhile isWsCh = '(' :: quoteChar :: nd := by
    rw [List.dropWhile_cons, if_neg (by decide)]
  have e3 : (quoteChar :: nd).takeWhile isWsCh = [] := by
    rw [List.takeWhile_cons, if_neg (by decide)]
  have e4 : (quoteChar :: nd).dropWhile isWsCh = quoteChar :: nd := by
    rw [List.dropWhile_cons, if_neg (by decide)]
  have e5 : nd.takeWhile isSvcNameCh = nd := takeWhile_all hsv
  have e6 : nd.dropWhile isSvcNameCh = [] := dropWhile_all hsv
  have e7 : nd.isEmpty = false := by
    cases nd with
    | nil => exact absurd rfl hne
    | cons _ _ => rfl
  have e8 : isQuoteCh quoteChar = true := by decide
  simp only [matchSvcTail, e1, e2, e3, e4, e5, e6, e7, e8]
  simp

theorem matchSvcTail_closed (nc : Bool) {nd : List Char} (hne : nd ≠ [])
    (hsv : ∀ c ∈ nd, isSvcNameCh c = true) :
    matchSvcTail isSvcNameCh nc ('(' :: quoteChar :: (nd ++ [quoteChar])) =
      some ('(' :: quoteChar :: (nd ++ [quoteChar]), nd, []) := by
  have e1 : ('(' :: quoteChar :: (nd ++ [quoteChar])).takeWhile isWsCh = [] := by
    rw [List.takeWhile_cons, if_neg (by decide)]
  have e2 : ('(' :: quoteChar :: (nd ++ [quoteChar])).dropWhile isWsCh =
      '(' :: quoteChar :: (nd ++ [quoteChar]) := by
    rw [List.dropWhile_cons, if_neg (by decide)]
  have e3 : (quoteChar :: (nd ++ [quoteChar])).takeWhile isWsCh = [] := by
    rw [List.takeWhile_cons, if_neg (by decide)]
  have e4 : (quoteChar :: (nd ++ [quoteChar])).dropWhile isWsCh =
      quoteChar :: (nd ++ [quoteChar]) := by
    rw [List.dropWhile_cons, if_neg (by decide)]
  have e5 : (nd ++ [quoteChar]).takeWhile isSvcNameCh = nd := by
    rw [takeWhile_append_all _ hsv, List.takeWhile_cons, if_neg (by decide)]
    simp
  have e6 : (nd ++ [quoteChar]).dropWhile isSvcNameCh = [quoteChar] := by
    rw [dropWhile_append_all _ hsv, List.dropWhile_cons, if_neg (by decide)]
  have e7 : nd.isEmpty = false := by
    cases nd with
    | nil => exact absurd rfl hne
    | cons _ _ => rfl
  have e8 : isQuoteCh quoteChar = true := by decide
  simp only [matchSvcTail, e1, e2, e3, e4, e5, e6, e7, e8]
  simp

theorem matchSvcTail_open_required {nd : List Char}
    (hsv : ∀ c ∈ nd, isSvcNameCh c = true) :
    matchSvcTail isSvcNameCh true ('(' :: quoteChar :: nd) = none := by
  have e1 : ('(' :: quoteChar :: nd).takeWhile isWsCh = [] := by
    rw [List.takeWhile_cons, if_neg (by decide)]
  have e2 : ('(' :: quoteChar :: nd).dropWhile isWsCh = '(' :: quoteChar :: nd := by
    rw [List.dropWhile_cons, if_neg (by decide)]
  have e3 : (quoteChar :: nd).takeWhile isWsCh = [] := by
    rw [List.takeWhile_cons, if_neg (by decide)]
  have e4 : (quoteChar :: nd).dropWhile isWsCh = quoteChar :: nd := by
    rw [List.dropWhile_cons, if_neg (by decide)]
  have e5 : nd.takeWhile isSvcNameCh = nd := takeWhile_all hsv
  have e6 : nd.dropWhile isSvcNameCh = [] := dropWhile_all hsv
  have e8 : isQuoteCh quoteChar = true := by decide
  simp only [matchSvcTail, e1, e2, e3, e4, e5, e6, e8]
  simp

theorem matchP1At_strip {r : List Char} {v} (nc : Bool)
    (ht : matchSvcTail isSvcNameCh nc r = some v) :
    matchP1At nc ("::service".data ++ r) =
      some ("::service".data ++ v.1, v.2.1, v.2.2) := by
  unfold matchP1At
  exact matchLitThen_self ht

theorem matchP1At_strip_none {r : List Char} (nc : Bool)
    (ht : matchSvcTail isSvcNameCh nc r = none) :
    matchP1At nc ("::service".data ++ r) = none := by
  unfold matchP1At
  exact matchLitThen_self_none ht

theorem matchP2At_this {r : List Char} {v} (nc : Bool)
    (ht : matchSvcTail isSvcNameCh nc r = some v) :
    matchP2At nc ("$this->get".data ++ r) =
      some ("$this->get".data ++ v.1, v.2.1, v.2.2) := by
  unfold matchP2At
  rw [matchLitThen_self ht]
  rfl

theorem matchP2At_this_none {r : List Char} (nc : Bool)
    (ht : matchSvcTail isSvcNameCh nc r = none) :
    matchP2At nc ("$this->get".data ++ r) = none := by
  unfold matchP2At
  have h2 : matchLitThen "$container->get" (matchSvcTail isSvcNameCh nc)
      ("$this->get".data ++ r) = none := rfl
  have h3 : matchLitThen "$this->container->get" (matchSvcTail isSvcNameCh nc)
      ("$this->get".data ++ r) = none := rfl
  rw [matchLitThen_self_none ht, h2, h3]
  rfl

theorem matchP2At_container {r : List Char} {v} (nc : Bool)
    (ht : matchSvcTail isSvcNameCh nc r = some v) :
    matchP2At nc ("$container->get".data ++ r) =
      some ("$container->get".data ++ v.1, v.2.1, v.2.2) := by
  unfold matchP2At
  have h1 : matchLitThen "$this->get" (matchSvcTail isSvcNameCh nc)
      ("$container->get".data ++ r) = none := rfl
  rw [h1, matchLitThen_self ht]
  rfl

theorem matchP2At_thiscont {r : List Char} {v} (nc : Bool)
    (ht : matchSvcTail isSvcNameCh nc r = some v) :
    matchP2At nc ("$this->container->get".data ++ r) =
      some ("$this->container->get".data ++ v.1, v.2.1, v.2.2) := by
  unfold matchP2At
  have h1 : matchLitThen "$this->get" (matchSvcTail isSvcNameCh nc)
      ("$this->container->get".data ++ r) = none := rfl
  have h2 : matchLitThen "$container->get" (matchSvcTail isSvcNameCh nc)
      ("$this->container->get".data ++ r) = none := rfl
  rw [h1, h2, matchLitThen_self ht]
  rfl

theorem testAnywhere_head {p : List Char → Bool} {s : List Char}
    (h : p s = true) : testAnywhere p s = true := by
  cases s with
  | nil => exact h
  | cons c cs =>
    simp only [testAnywhere]
    rw [h]
    rfl

theorem jsIncludesL_nil_pat (r : List Char) : jsIncludesL r [] = true := by
  cases r <;> simp [jsIncludesL, jsStartsWithL]

theorem jsIncludesL_append_left {l pat : List Char} (r : List Char)
    (h : jsIncludesL l pat = true) : jsIncludesL (l ++ r) pat = true := by
  induction l with
  | nil =>
    cases pat with
    | nil => exact jsIncludesL_nil_pat r
    | cons p ps => simp [jsIncludesL, jsStartsWithL] at h
  | cons c cs ih =>
    simp only [jsIncludesL, Bool.or_eq_true] at h
    simp only [List.cons_append, jsIncludesL, Bool.or_eq_true]
    rcases h with h | h
    · exact Or.inl (by
        show jsStartsWithL ((c :: cs) ++ r) pat = true
        exact jsStartsWithL_append r h)
    · exact Or.inr (ih h)

theorem lastIdxOfCh_cons (a : Char) (as : List Char) (q : Char) :
    lastIdxOfCh (a :: as) q =
      if lastIdxOfCh as q ≥ 0 then lastIdxOfCh as q + 1
      else if a = q then 0 else -1 := rfl

theorem lastIdxOfCh_neg {q : Char} {r : List Char} (h : ∀ c ∈ r, ¬c = q) :
    lastIdxOfCh r q = -1 := by
  induction r with
  | nil => rfl
  | cons a as ih =>
    rw [lastIdxOfCh_cons, ih (fun c hc => h c (by simp [hc])),
      if_neg (by omega), if_neg (h a (by simp))]

theorem lastIdxOfCh_append_none {q : Char} {l r : List Char}
    (h : ∀ c ∈ r, ¬c = q) : lastIdxOfCh (l ++ r) q = lastIdxOfCh l q := by
  induction l with
  | nil =>
    rw [List.nil_append, lastIdxOfCh_neg h]
    rfl
  | cons a as ih =>
    rw [List.cons_append, lastIdxOfCh_cons, lastIdxOfCh_cons, ih]

theorem no_colon_pair {a b : List Char}
    (ha : ∀ x ∈ a, ¬lowerChar x = ':') (hb : ∀ x ∈ b, ¬lowerChar x = ':') :
    ∀ c ∈ a ++ b, ¬lowerChar c = ':' := by
  intro c hc
  rcases List.mem_append.mp hc with hc | hc
  · exact ha c hc
  · exact hb c hc

theorem no_dollar_pair {a b : List Char}
    (ha : ∀ x ∈ a, ¬lowerChar x = '$') (hb : ∀ x ∈ b, ¬lowerChar x = '$') :
    ∀ c ∈ a ++ b, ¬lowerChar c = '$' := by
  intro c hc
  rcases List.mem_append.mp hc with hc | hc
  · exact ha c hc
  · exact hb c hc

theorem extractCalls_eq_genP2 (lineO lineC : String) (preD nd : List Char)
    (hch : ∀ ch ∈ nd, ch ∈ svcNameChars)
    (hdO : lineO.data = preD ++ ('(' :: quoteChar :: nd))
    (hdC : lineC.data = preD ++ ('(' :: quoteChar :: (nd ++ [quoteChar])))
    (hpre : ∀ x ∈ preD, ¬lowerChar x = ':')
    (hO : matchP2At false (preD ++ ('(' :: quoteChar :: nd)) =
      some (preD ++ ('(' :: quoteChar :: nd), nd, []))
    (hC : matchP2At false (preD ++ ('(' :: quoteChar :: (nd ++ [quoteChar]))) =
      some (preD ++ ('(' :: quoteChar :: (nd ++ [quoteChar])), nd, [])) :
    extractServiceCalls lineO = extractServiceCalls lineC ∧
    extractServiceCalls lineO = [toCall (0, preD ++ ('(' :: quoteChar :: nd), nd)] := by
  have hndcol : ∀ x ∈ nd, ¬lowerChar x = ':' :=
    fun x hx => (svcChars_fact x (hch x hx)).2.2.2.1
  have hallO : ∀ c ∈ preD ++ ('(' :: quoteChar :: nd), ¬lowerChar c = ':' :=
    no_colon_pair hpre (no_colon_pair (a := ['(', quoteChar]) (by decide) hndcol)
  have hallC : ∀ c ∈ preD ++ ('(' :: quoteChar :: (nd ++ [quoteChar])),
      ¬lowerChar c = ':' :=
    no_colon_pair hpre (no_colon_pair (a := ['(', quoteChar]) (by decide)
      (no_colon_pair hndcol (by decide)))
  have hP1O : execAll (matchP1At false) lineO.data = [] := by
    rw [hdO]
    exact execAll_P1_none hallO false
  have hP1C : execAll (matchP1At false) lineC.data = [] := by
    rw [hdC]
    exact execAll_P1_none hallC false
  have hP2O : execAll (matchP2At false) lineO.data =
      [(0, preD ++ ('(' :: quoteChar :: nd), nd)] := by
    rw [hdO]
    exact execAll_single hO rfl
  have hP2C : execAll (matchP2At false) lineC.data =
      [(0, preD ++ ('(' :: quoteChar :: (nd ++ [quoteChar])), nd)] := by
    rw [hdC]
    exact execAll_single hC rfl
  have hnn : 0 ≤ jsIndexOf (preD ++ ('(' :: quoteChar :: nd)) nd := by
    have h := jsIndexOf_nonneg (preD ++ ['(', quoteChar]) nd []
    simpa [List.append_assoc] using h
  have hfc : preD ++ ('(' :: quoteChar :: (nd ++ [quoteChar])) =
      (preD ++ ('(' :: quoteChar :: nd)) ++ [quoteChar] := by
    simp [List.append_assoc]
  constructor
  · unfold extractServiceCalls
    rw [hP1O, hP1C, hP2O, hP2C]
    simp only [List.map, List.nil_append]
    rw [hfc, toCall_append [quoteChar] hnn]
  · unfold extractServiceCalls
    rw [hP1O, hP2O]
    simp only [List.map, List.nil_append]

theorem extractCalls_eq_genP1 (lineO lineC : String) (nd : List Char)
    (hne : nd ≠ []) (hch : ∀ ch ∈ nd, ch ∈ svcNameChars)
    (hdO : lineO.data = "::service".data ++ ('(' :: quoteChar :: nd))
    (hdC : lineC.data = "::service".data ++ ('(' :: quoteChar :: (nd ++ [quoteChar]))) :
    extractServiceCalls lineO = extractServiceCalls lineC ∧
    extractServiceCalls lineO =
      [toCall (0, "::service".data ++ ('(' :: quoteChar :: nd), nd)] := by
  have hsv : ∀ c ∈ nd, isSvcNameCh c = true :=
    fun c hc => (svcChars_fact c (hch c hc)).1
  have hnddol : ∀ x ∈ nd, ¬lowerChar x = '$' :=
    fun x hx => (svcChars_fact x (hch x hx)).2.2.2.2.1
  have hdolO : ∀ c ∈ "::service".data ++ ('(' :: quoteChar :: nd),
      ¬lowerChar c = '$' :=
    no_dollar_pair (by decide)
      (no_dollar_pair (a := ['(', quoteChar]) (by decide) hnddol)
  have hdolC : ∀ c ∈ "::service".data ++ ('(' :: quoteChar :: (nd ++ [quoteChar])),
      ¬lowerChar c = '$' :=
    no_dollar_pair (by decide) (no_dollar_pair (a := ['(', quoteChar]) (by decide)
      (no_dollar_pair hnddol (by decide)))
  have hP2O : execAll (matchP2At false) lineO.data = [] := by
    rw [hdO]
    exact execAll_P2_none hdolO false
  have hP2C : execAll (matchP2At false) lineC.data = [] := by
    rw [hdC]
    exact execAll_P2_none hdolC false
  have hP1O : execAll (matchP1At false) lineO.data =
      [(0, "::service".data ++ ('(' :: quoteChar :: nd), nd)] := by
    rw [hdO]
    exact execAll_single (matchP1At_strip false (matchSvcTail_open hne hsv)) rfl
  have hP1C : execAll (matchP1At false) lineC.data =
      [(0, "::service".data ++ ('(' :: quoteChar :: (nd ++ [quoteChar])), nd)] := by
    rw [hdC]
    exact execAll_single (matchP1At_strip false (matchSvcTail_closed false hne hsv)) rfl
  have hnn : 0 ≤ jsIndexOf ("::service".data ++ ('(' :: quoteChar :: nd)) nd := by
    have h := jsIndexOf_nonneg ("::service".data ++ ['(', quoteChar]) nd []
    simpa [List.append_assoc] using h
  have hfc : "::service".data ++ ('(' :: quoteChar :: (nd ++ [quoteChar])) =
      ("::service".data ++ ('(' :: quoteChar :: nd)) ++ [quoteChar] := by
    simp [List.append_assoc]
  constructor
  · unfold extractServiceCalls
    rw [hP1O, hP1C, hP2O, hP2C]
    simp only [List.map, List.nil_append, List.append_nil]
    rw [hfc, toCall_append [quoteChar] hnn]
  · unfold extractServiceCalls
    rw [hP1O, hP2O]
    simp only [List.map, List.nil_append, List.append_nil]

theorem matchP2At_container_none {r : List Char} (nc : Bool)
    (ht : matchSvcTail isSvcNameCh nc r = none) :
    matchP2At nc ("$container->get".data ++ r) = none := by
  unfold matchP2At
  have h1 : matchLitThen "$this->get" (matchSvcTail isSvcNameCh nc)
      ("$container->get".data ++ r) = none := rfl
  have h3 : matchLitThen "$this->container->get" (matchSvcTail isSvcNameCh nc)
      ("$container->get".data ++ r) = none := rfl
  rw [h1, matchLitThen_self_none ht, h3]
  rfl

theorem matchP2At_thiscont_none {r : List Char} (nc : Bool)
    (ht : matchSvcTail isSvcNameCh nc r = none) :
    matchP2At nc ("$this->container->get".data ++ r) = none := by
  unfold matchP2At
  have h1 : matchLitThen "$this->get" (matchSvcTail isSvcNameCh nc)
      ("$this->container->get".data ++ r) = none := rfl
  have h2 : matchLitThen "$container->get" (matchSvcTail isSvcNameCh nc)
      ("$this->container->get".data ++ r) = none := rfl
  rw [h1, h2, matchLitThen_self_none ht]
  rfl

theorem svcChars_not_quote {c : Char} (h : c ∈ svcNameChars) : ¬c = quoteChar := by
  intro he
  have h2 := (svcChars_fact c h).2.1
  rw [he] at h2
  exact absurd h2 (by decide)

theorem svcOpenTailAt_open {nd : List Char} (hch : ∀ ch ∈ nd, ch ∈ svcNameChars) :
    svcOpenTailAt ('(' :: quoteChar :: nd) = true := by
  have e2 : (('(' : Char) :: quoteChar :: nd).dropWhile isWsCh =
      '(' :: quoteChar :: nd := by
    rw [List.dropWhile_cons, if_neg (by decide)]
  have e4 : (quoteChar :: nd).dropWhile isWsCh = quoteChar :: nd := by
    rw [List.dropWhile_cons, if_neg (by decide)]
  have e5 : nd.all (fun c => !(isQuoteCh c)) = true := by
    rw [List.all_eq_true]
    intro c hc
    simp [(svcChars_fact c (hch c hc)).2.1]
  simp [svcOpenTailAt, e2, e4, e5]
  decide

theorem p1OpenAt_hit {nd : List Char} (hch : ∀ ch ∈ nd, ch ∈ svcNameChars) :
    p1OpenAt ("::service".data ++ ('(' :: quoteChar :: nd)) = true := by
  unfold p1OpenAt
  simp only [stripLitCS_self]
  rw [svcOpenTailAt_open hch]

theorem p2OpenAt_this_hit {nd : List Char} (hch : ∀ ch ∈ nd, ch ∈ svcNameChars) :
    p2OpenAt ("$this->get".data ++ ('(' :: quoteChar :: nd)) = true := by
  unfold p2OpenAt
  simp only [stripLitCS_self]
  rw [svcOpenTailAt_open hch]
  rfl

theorem p2OpenAt_container_hit {nd : List Char} (hch : ∀ ch ∈ nd, ch ∈ svcNameChars) :
    p2OpenAt ("$container->get".data ++ ('(' :: quoteChar :: nd)) = true := by
  unfold p2OpenAt
  have h1 : stripLitCS "$this->get".data ("$container->get".data ++
      ('(' :: quoteChar :: nd)) = none := rfl
  rw [h1]
  simp only [stripLitCS_self]
  rw [svcOpenTailAt_open hch]
  rfl

theorem p2OpenAt_thiscont_hit {nd : List Char} (hch : ∀ ch ∈ nd, ch ∈ svcNameChars) :
    p2OpenAt ("$this->container->get".data ++ ('(' :: quoteChar :: nd)) = true := by
  unfold p2OpenAt
  have h1 : stripLitCS "$this->get".data ("$this->container->get".data ++
      ('(' :: quoteChar :: nd)) = none := rfl
  have h2 : stripLitCS "$container->get".data ("$this->container->get".data ++
      ('(' :: quoteChar :: nd)) = none := rfl
  rw [h1, h2]
  simp only [stripLitCS_self]
  rw [svcOpenTailAt_open hch]
  rfl

theorem gsci_of_p2 (line : String) (k : Int)
    (hhit : testAnywhere p2OpenAt line.data = true)
    (hinc : strIncludes line (String.mk [quoteChar]) = true)
    (hlast : lastIdxOfCh line.data quoteChar = k) :
    getServiceCallInfo line = some k := by
  unfold getServiceCallInfo
  rw [hhit, Bool.or_true, if_pos rfl, hinc, if_pos rfl]
  show some (lastIdxOfCh line.data quoteChar) = some k
  rw [hlast]

theorem gsci_of_p1 (line : String) (k : Int)
    (hhit : testAnywhere p1OpenAt line.data = true)
    (hinc : strIncludes line (String.mk [quoteChar]) = true)
    (hlast : lastIdxOfCh line.data quoteChar = k) :
    getServiceCallInfo line = some k := by
  unfold getServiceCallInfo
  rw [hhit, Bool.true_or, if_pos rfl, hinc, if_pos rfl]
  show some (lastIdxOfCh line.data quoteChar) = some k
  rw [hlast]

theorem esn_execAll_empty (line : String) (c : Nat)
    (h1 : execAll (matchP1At true) line.data = [])
    (h2 : execAll (matchP2At true) line.data = []) :
    extractServiceName line c = none := by
  unfold extractServiceName
  rw [h1, h2]
  rfl

theorem execAll_P2true_this {nd : List Char}
    (hsv : ∀ c ∈ nd, isSvcNameCh c = true)
    (hdol : ∀ c ∈ nd, ¬lowerChar c = '$') :
    execAll (matchP2At true) ("$this->get".data ++ ('(' :: quoteChar :: nd)) = [] := by
  have h0 : matchP2At true
      ('$' :: ("this->get".data ++ ('(' :: quoteChar :: nd))) = none :=
    matchP2At_this_none true (matchSvcTail_open_required hsv)
  have hscan : scanFrom (matchP2At true) 0
      ("$this->get".data ++ ('(' :: quoteChar :: nd)) = none := by
    show scanFrom (matchP2At true) 0
      ('$' :: ("this->get".data ++ ('(' :: quoteChar :: nd))) = none
    rw [scanFrom_step h0 0]
    apply scanFrom_none_all rfl
    intro c hc t
    exact matchP2At_head_ne
      (no_dollar_pair (by decide)
        (no_dollar_pair (a := ['(', quoteChar]) (by decide) hdol) c hc) true t
  unfold execAll
  rw [execGo, hscan]
  rfl

theorem execAll_P2true_container {nd : List Char}
    (hsv : ∀ c ∈ nd, isSvcNameCh c = true)
    (hdol : ∀ c ∈ nd, ¬lowerChar c = '$') :
    execAll (matchP2At true)
      ("$container->get".data ++ ('(' :: quoteChar :: nd)) = [] := by
  have h0 : matchP2At true
      ('$' :: ("container->get".data ++ ('(' :: quoteChar :: nd))) = none :=
    matchP2At_container_none true (matchSvcTail_open_required hsv)
  have hscan : scanFrom (matchP2At true) 0
      ("$container->get".data ++ ('(' :: quoteChar :: nd)) = none := by
    show scanFrom (matchP2At true) 0
      ('$' :: ("container->get".data ++ ('(' :: quoteChar :: nd))) = none
    rw [scanFrom_step h0 0]
    apply scanFrom_none_all rfl
    intro c hc t
    exact matchP2At_head_ne
      (no_dollar_pair (by decide)
        (no_dollar_pair (a := ['(', quoteChar]) (by decide) hdol) c hc) true t
  unfold execAll
  rw [execGo, hscan]
  rfl

theorem execAll_P2true_thiscont {nd : List Char}
    (hsv : ∀ c ∈ nd, isSvcNameCh c = true)
    (hdol : ∀ c ∈ nd, ¬lowerChar c = '$') :
    execAll (matchP2At true)
      ("$this->container->get".data ++ ('(' :: quoteChar :: nd)) = [] := by
  have h0 : matchP2At true
      ('$' :: ("this->container->get".data ++ ('(' :: quoteChar :: nd))) = none :=
    matchP2At_thiscont_none true (matchSvcTail_open_required hsv)
  have hscan : scanFrom (matchP2At true) 0
      ("$this->container->get".data ++ ('(' :: quoteChar :: nd)) = none := by
    show scanFrom (matchP2At true) 0
      ('$' :: ("this->container->get".data ++ ('(' :: quoteChar :: nd))) = none
    rw [scanFrom_step h0 0]
    apply scanFrom_none_all rfl
    intro c hc t
    exact matchP2At_head_ne
      (no_dollar_pair (by decide)
        (no_dollar_pair (a := ['(', quoteChar]) (by decide) hdol) c hc) true t
  unfold execAll
  rw [execGo, hscan]
  rfl

theorem execAll_P1true_service {nd : List Char}
    (hsv : ∀ c ∈ nd, isSvcNameCh c = true)
    (hcol : ∀ c ∈ nd, ¬lowerChar c = ':') :
    execAll (matchP1At true)
      ("::service".data ++ ('(' :: quoteChar :: nd)) = [] := by
  have h0 : matchP1At true
      (':' :: (':' :: ("service".data ++ ('(' :: quoteChar :: nd)))) = none :=
    matchP1At_strip_none true (matchSvcTail_open_required hsv)
  have h1 : matchP1At true
      (':' :: ("service".data ++ ('(' :: quoteChar :: nd))) = none := rfl
  have hscan : scanFrom (matchP1At true) 0
      ("::service".data ++ ('(' :: quoteChar :: nd)) = none := by
    show scanFrom (matchP1At true) 0
      (':' :: (':' :: ("service".data ++ ('(' :: quoteChar :: nd)))) = none
    rw [scanFrom_step h0 0, scanFrom_step h1 1]
    apply scanFrom_none_all rfl
    intro c hc t
    exact matchP1At_head_ne
      (no_colon_pair (a := "service".data) (by decide)
        (no_colon_pair (a := ['(', quoteChar]) (by decide) hcol) c hc) true t
  unfold execAll
  rw [execGo, hscan]
  rfl

/-- Claim C5 (amended): for every non-empty service name over the
pattern's character class and every call-site shape, the diagnostics
extractor `extractServiceCalls` produces the same calls (same captured
name) whether or not the closing quote is present, and the completion
helper `getServiceCallInfo` recognizes the open literal and reports the
quote position; but the hover/definition extractor `extractServiceName`
requires the closing quote — on an unterminated literal it returns no
match at every cursor offset, so extraction under the cursor does NOT
behave the same there. -/
theorem C5_unterminated_literal (n : String) (c : Nat)
    (hne : n.data ≠ []) (hch : ∀ ch ∈ n.data, ch ∈ svcNameChars) :
    (extractServiceCalls ("$this->get('" ++ n) =
       extractServiceCalls ("$this->get('" ++ n ++ String.mk [quoteChar]) ∧
     extractServiceCalls ("$container->get('" ++ n) =
       extractServiceCalls ("$container->get('" ++ n ++ String.mk [quoteChar]) ∧
     extractServiceCalls ("$this->container->get('" ++ n) =
       extractServiceCalls ("$this->container->get('" ++ n ++ String.mk [quoteChar]) ∧
     extractServiceCalls ("::service('" ++ n) =
       extractServiceCalls ("::service('" ++ n ++ String.mk [quoteChar])) ∧
    ((extractServiceCalls ("$this->get('" ++ n)).map ExtractedCall.name = [n] ∧
     (extractServiceCalls ("$container->get('" ++ n)).map ExtractedCall.name = [n] ∧
     (extractServiceCalls ("$this->container->get('" ++ n)).map ExtractedCall.name
       = [n] ∧
     (extractServiceCalls ("::service('" ++ n)).map ExtractedCall.name = [n]) ∧
    (getServiceCallInfo ("$this->get('" ++ n) = some 11 ∧
     getServiceCallInfo ("$container->get('" ++ n) = some 16 ∧
     getServiceCallInfo ("$this->container->get('" ++ n) = some 22 ∧
     getServiceCallInfo ("::service('" ++ n) = some 10) ∧
    (extractServiceName ("$this->get('" ++ n) c = none ∧
     extractServiceName ("$container->get('" ++ n) c = none ∧
     extractServiceName ("$this->container->get('" ++ n) c = none ∧
     extractServiceName ("::service('" ++ n) c = none) := by
  have hmkq : (String.mk [quoteChar]).data = [quoteChar] := rfl
  have hsv : ∀ x ∈ n.data, isSvcNameCh x = true :=
    fun x hx => (svcChars_fact x (hch x hx)).1
  have hcol : ∀ x ∈ n.data, ¬lowerChar x = ':' :=
    fun x hx => (svcChars_fact x (hch x hx)).2.2.2.1
  have hdol : ∀ x ∈ n.data, ¬lowerChar x = '$' :=
    fun x hx => (svcChars_fact x (hch x hx)).2.2.2.2.1
  have hnq : ∀ x ∈ n.data, ¬x = quoteChar :=
    fun x hx => svcChars_not_quote (hch x hx)
  have hlitA : ("$this->get('" : String).data =
      "$this->get".data ++ ['(', quoteChar] := by decide
  have hlitB : ("$container->get('" : String).data =
      "$container->get".data ++ ['(', quoteChar] := by decide
  have hlitC : ("$this->container->get('" : String).data =
      "$this->container->get".data ++ ['(', quoteChar] := by decide
  have hlitD : ("::service('" : String).data =
      "::service".data ++ ['(', quoteChar] := by decide
  have hdAO : ("$this->get('" ++ n).data =
      "$this->get".data ++ ('(' :: quoteChar :: n.data) := by
    rw [strData_append, hlitA]
    exact List.append_assoc _ _ _
  have hdAC : ("$this->get('" ++ n ++ String.mk [quoteChar]).data =
      "$this->get".data ++ ('(' :: quoteChar :: (n.data ++ [quoteChar])) := by
    rw [strData_append, strData_append, hlitA, hmkq]
    simp [List.append_assoc]
  have hdBO : ("$container->get('" ++ n).data =
      "$container->get".data ++ ('(' :: quoteChar :: n.data) := by
    rw [strData_append, hlitB]
    exact List.append_assoc _ _ _
  have hdBC : ("$container->get('" ++ n ++ String.mk [quoteChar]).data =
      "$container->get".data ++ ('(' :: quoteChar :: (n.data ++ [quoteChar])) := by
    rw [strData_append, strData_append, hlitB, hmkq]
    simp [List.append_assoc]
  have hdCO : ("$this->container->get('" ++ n).data =
      "$this->container->get".data ++ ('(' :: quoteChar :: n.data) := by
    rw [strData_append, hlitC]
    exact List.append_assoc _ _ _
  have hdCC : ("$this->container->get('" ++ n ++ String.mk [quoteChar]).data =
      "$this->container->get".data ++
        ('(' :: quoteChar :: (n.data ++ [quoteChar])) := by
    rw [strData_append, strData_append, hlitC, hmkq]
    simp [List.append_assoc]
  have hdDO : ("::service('" ++ n).data =
      "::service".data ++ ('(' :: quoteChar :: n.data) := by
    rw [strData_append, hlitD]
    exact List.append_assoc _ _ _
  have hdDC : ("::service('" ++ n ++ String.mk [quoteChar]).data =
      "::service".data ++ ('(' :: quoteChar :: (n.data ++ [quoteChar])) := by
    rw [strData_append, strData_append, hlitD, hmkq]
    simp [List.append_assoc]
  have htO := matchSvcTail_open hne hsv
  have htC := matchSvcTail_closed false hne hsv
  have geA := extractCalls_eq_genP2 _ _ "$this->get".data n.data hch hdAO hdAC
    (by decide) (matchP2At_this false htO) (matchP2At_this false htC)
  have geB := extractCalls_eq_genP2 _ _ "$container->get".data n.data hch hdBO hdBC
    (by decide) (matchP2At_container false htO) (matchP2At_container false htC)
  have geC := extractCalls_eq_genP2 _ _ "$this->container->get".data n.data hch
    hdCO hdCC (by decide) (matchP2At_thiscont false htO)
    (matchP2At_thiscont false htC)
  have geD := extractCalls_eq_genP1 _ _ n.data hne hch hdDO hdDC
  have hnmA : (extractServiceCalls ("$this->get('" ++ n)).map ExtractedCall.name
      = [n] := by
    rw [geA.2]
    rfl
  have hnmB : (extractServiceCalls ("$container->get('" ++ n)).map
      ExtractedCall.name = [n] := by
    rw [geB.2]
    rfl
  have hnmC : (extractServiceCalls ("$this->container->get('" ++ n)).map
      ExtractedCall.name = [n] := by
    rw [geC.2]
    rfl
  have hnmD : (extractServiceCalls ("::service('" ++ n)).map ExtractedCall.name
      = [n] := by
    rw [geD.2]
    rfl
  have giA : getServiceCallInfo ("$this->get('" ++ n) = some 11 := by
    apply gsci_of_p2
    · rw [hdAO]
      exact testAnywhere_head (p2OpenAt_this_hit hch)
    · unfold strIncludes
      rw [strData_append, hmkq]
      exact jsIncludesL_append_left n.data (by decide)
    · rw [strData_append, lastIdxOfCh_append_none hnq]
      decide
  have giB : getServiceCallInfo ("$container->get('" ++ n) = some 16 := by
    apply gsci_of_p2
    · rw [hdBO]
      exact testAnywhere_head (p2OpenAt_container_hit hch)
    · unfold strIncludes
      rw [strData_append, hmkq]
      exact jsIncludesL_append_left n.data (by decide)
    · rw [strData_append, lastIdxOfCh_append_none hnq]
      decide
  have giC : getServiceCallInfo ("$this->container->get('" ++ n) = some 22 := by
    apply gsci_of_p2
    · rw [hdCO]
      exact testAnywhere_head (p2OpenAt_thiscont_hit hch)
    · unfold strIncludes
      rw [strData_append, hmkq]
      exact jsIncludesL_append_left n.data (by decide)
    · rw [strData_append, lastIdxOfCh_append_none hnq]
      decide
  have giD : getServiceCallInfo ("::service('" ++ n) = some 10 := by
    apply gsci_of_p1
    · rw [hdDO]
      exact testAnywhere_head (p1OpenAt_hit hch)
    · unfold strIncludes
      rw [strData_append, hmkq]
      exact jsIncludesL_append_left n.data (by decide)
    · rw [strData_append, lastIdxOfCh_append_none hnq]
      decide
  have heA : extractServiceName ("$this->get('" ++ n) c = none := by
    apply esn_execAll_empty
    · rw [hdAO]
      exact execAll_P1_none (no_colon_pair (by decide)
        (no_colon_pair (a := ['(', quoteChar]) (by decide) hcol)) true
    · rw [hdAO]
      exact execAll_P2true_this hsv hdol
  have heB : extractServiceName ("$container->get('" ++ n) c = none := by
    apply esn_execAll_empty
    · rw [hdBO]
      exact execAll_P1_none (no_colon_pair (by decide)
        (no_colon_pair (a := ['(', quoteChar]) (by decide) hcol)) true
    · rw [hdBO]
      exact execAll_P2true_container hsv hdol
  have heC : extractServiceName ("$this->container->get('" ++ n) c = none := by
    apply esn_execAll_empty
    · rw [hdCO]
      exact execAll_P1_none (no_colon_pair (by decide)
        (no_colon_pair (a := ['(', quoteChar]) (by decide) hcol)) true
    · rw [hdCO]
      exact execAll_P2true_thiscont hsv hdol
  have heD : extractServiceName ("::service('" ++ n) c = none := by
    apply esn_execAll_empty
    · rw [hdDO]
      exact execAll_P1true_service hsv hcol
    · rw [hdDO]
      exact execAll_P2_none (no_dollar_pair (by decide)
        (no_dollar_pair (a := ['(', quoteChar]) (by decide) hdol)) true
  exact ⟨⟨geA.1, geB.1, geC.1, geD.1⟩, ⟨hnmA, hnmB, hnmC, hnmD⟩,
    ⟨giA, giB, giC, giD⟩, heA, heB, heC, heD⟩

/-- Claim C5, counterexample to the claim as stated: on the unterminated
line `$this->get('cache.back` the hover/definition extractor
`extractServiceName` returns no match at cursor offset 15 (inside the
name), while on the terminated line it returns `cache.back` — so this
shape's extraction under the cursor does not behave the same when the
closing quote is absent. -/
theorem C5_counterexample :
    extractServiceName "$this->get('cache.back" 15 = none ∧
    extractServiceName "$this->get('cache.back')" 15 = some "cache.back" ∧
    (none : Option String) ≠ some "cache.back" := by
  refine ⟨by decide, by decide, by decide⟩

/-- Claim C5, witness: the amended theorem applied at the concrete name
`cache.back` and cursor offset 3. -/
theorem C5_witness :
    (("cache.back" : String).data ≠ [] ∧
      ∀ ch ∈ ("cache.back" : String).data, ch ∈ svcNameChars) ∧
    extractServiceCalls ("$this->get('" ++ "cache.back") =
      extractServiceCalls ("$this->get('" ++ "cache.back" ++ String.mk [quoteChar]) ∧
    getServiceCallInfo ("$this->get('" ++ "cache.back") = some 11 ∧
    extractServiceName ("$this->get('" ++ "cache.back") 3 = none := by
  have h := C5_unterminated_literal "cache.back" 3 (by decide) (by decide)
  exact ⟨⟨by decide, by decide⟩, h.1.1, h.2.2.1.1, h.2.2.2.1⟩

theorem php_filterMap_countP (routeNames : List String) (i : Nat) (r : String) :
    ∀ ms : List ExtractedCall,
      ((ms.filterMap (fun m =>
        if routeNames.contains m.name then none
        else if isDynamicRoutePattern m.name then none
        else some (⟨i, m.startPos, m.endPos, m.name⟩ : RouteDiag))).countP
          (fun d => decide (d.routeName = r))) =
      ms.countP (fun m => !(routeNames.contains m.name) &&
        (!(isDynamicRoutePattern m.name) && decide (m.name = r))) := by
  intro ms
  induction ms with
  | nil => rfl
  | cons m ms ih =>
    by_cases h1 : m.name ∈ routeNames
    · simp [List.filterMap_cons, List.countP_cons, h1] at ih ⊢
      exact ih
    · by_cases h2 : isDynamicRoutePattern m.name = true
      · simp [List.filterMap_cons, List.countP_cons, h1, h2] at ih ⊢
        exact ih
      · simp [List.filterMap_cons, List.countP_cons, h1, h2] at ih ⊢
        rw [ih]

theorem php_line_count_mem {routeNames : List String} {r : String}
    (h : routeNames.contains r = true) (i : Nat) (l : String) :
    (phpValidateRouteLine routeNames i l).countP
      (fun d => decide (d.routeName = r)) = 0 := by
  unfold phpValidateRouteLine
  rw [php_filterMap_countP]
  apply List.countP_eq_zero.mpr
  intro m _ hp
  simp only [Bool.and_eq_true, Bool.not_eq_true', decide_eq_true_eq] at hp
  rw [hp.2.2] at hp
  rw [h] at hp
  exact absurd hp.1 (by decide)

theorem php_line_count_dyn {routeNames : List String} {r : String}
    (h : isDynamicRoutePattern r = true) (i : Nat) (l : String) :
    (phpValidateRouteLine routeNames i l).countP
      (fun d => decide (d.routeName = r)) = 0 := by
  unfold phpValidateRouteLine
  rw [php_filterMap_countP]
  apply List.countP_eq_zero.mpr
  intro m _ hp
  simp only [Bool.and_eq_true, Bool.not_eq_true', decide_eq_true_eq] at hp
  rw [hp.2.2] at hp
  rw [h] at hp
  exact absurd hp.2.1 (by decide)

theorem php_line_count_miss {routeNames : List String} {r : String}
    (hc : routeNames.contains r = false) (hd : isDynamicRoutePattern r = false)
    (i : Nat) (l : String) :
    (phpValidateRouteLine routeNames i l).countP
      (fun d => decide (d.routeName = r)) =
      ((extractRouteCalls l).filter (fun m => decide (m.name = r))).length := by
  have hc2 : ¬(r ∈ routeNames) := by simpa using hc
  unfold phpValidateRouteLine
  rw [php_filterMap_countP, ← List.countP_eq_length_filter]
  apply List.countP_congr
  intro m _
  by_cases he : m.name = r
  · rw [he]
    simp [hc2, hd]
  · simp [he]

theorem yaml_line_count_mem {routeNames : List String} {r : String}
    (h : routeNames.contains r = true) (i : Nat) (l : String) :
    (yamlValidateRouteLine routeNames i l).countP
      (fun d => decide (d.routeName = r)) = 0 := by
  have h2p : r ∈ routeNames := by simpa using h
  unfold yamlValidateRouteLine
  cases hy : yamlRouteName l with
  | none => rfl
  | some nm =>
    by_cases h1 : nm ∈ routeNames
    · simp [h1]
    · by_cases h2 : isDynamicRoutePattern nm = true
      · simp [h1, h2]
      · have hne : ¬(nm = r) := by
          intro he
          rw [he] at h1
          exact h1 h2p
        simp [h1, h2, List.countP_cons, hne]

theorem yaml_line_count_dyn {routeNames : List String} {r : String}
    (h : isDynamicRoutePattern r = true) (i : Nat) (l : String) :
    (yamlValidateRouteLine routeNames i l).countP
      (fun d => decide (d.routeName = r)) = 0 := by
  unfold yamlValidateRouteLine
  cases hy : yamlRouteName l with
  | none => rfl
  | some nm =>
    by_cases h1 : nm ∈ routeNames
    · simp [h1]
    · by_cases he : nm = r
      · rw [he]
        simp [h1, h]
      · by_cases h2 : isDynamicRoutePattern nm = true
        · simp [h1, h2]
        · simp [h1, h2, List.countP_cons, he]

theorem yaml_line_count_miss {routeNames : List String} {r : String}
    (hc : routeNames.contains r = false) (hd : isDynamicRoutePattern r = false)
    (i : Nat) (l : String) :
    (yamlValidateRouteLine routeNames i l).countP
      (fun d => decide (d.routeName = r)) =
      (if yamlRouteName l = some r then 1 else 0) := by
  have hc2 : ¬(r ∈ routeNames) := by simpa using hc
  unfold yamlValidateRouteLine
  cases hy : yamlRouteName l with
  | none => simp
  | some nm =>
    by_cases he : nm = r
    · rw [he]
      simp [hc2, hd, List.countP_cons]
    · by_cases h1 : nm ∈ routeNames
      · simp [h1, he]
      · by_cases h2 : isDynamicRoutePattern nm = true
        · simp [h1, h2, he]
        · simp [h1, h2, he, List.countP_cons]

theorem phpFrom_count_zero {routeNames : List String} {r : String}
    (hz : ∀ (i : Nat) (l : String), (phpValidateRouteLine routeNames i l).countP
      (fun d => decide (d.routeName = r)) = 0) :
    ∀ (i : Nat) (lines : List String),
      (phpRouteDiagsFrom routeNames i lines).countP
        (fun d => decide (d.routeName = r)) = 0 := by
  intro i lines
  induction lines generalizing i with
  | nil => rfl
  | cons l ls ih =>
    rw [phpRouteDiagsFrom, List.countP_append, hz i l, ih (i + 1)]

theorem yamlFrom_count_zero {routeNames : List String} {r : String}
    (hz : ∀ (i : Nat) (l : String), (yamlValidateRouteLine routeNames i l).countP
      (fun d => decide (d.routeName = r)) = 0) :
    ∀ (i : Nat) (lines : List String),
      (yamlRouteDiagsFrom routeNames i lines).countP
        (fun d => decide (d.routeName = r)) = 0 := by
  intro i lines
  induction lines generalizing i with
  | nil => rfl
  | cons l ls ih =>
    rw [yamlRouteDiagsFrom, List.countP_append, hz i l, ih (i + 1)]

theorem phpFrom_count_miss {routeNames : List String} {r : String}
    (hc : routeNames.contains r = false) (hd : isDynamicRoutePattern r = false) :
    ∀ (i : Nat) (lines : List String),
      (phpRouteDiagsFrom routeNames i lines).countP
        (fun d => decide (d.routeName = r)) =
      (lines.map (fun l => ((extractRouteCalls l).filter
        (fun m => decide (m.name = r))).length)).sum := by
  intro i lines
  induction lines generalizing i with
  | nil => rfl
  | cons l ls ih =>
    rw [phpRouteDiagsFrom, List.countP_append, php_line_count_miss hc hd i l,
      ih (i + 1), List.map_cons, List.sum_cons]

theorem yamlFrom_count_miss {routeNames : List String} {r : String}
    (hc : routeNames.contains r = false) (hd : isDynamicRoutePattern r = false) :
    ∀ (i : Nat) (lines : List String),
      (yamlRouteDiagsFrom routeNames i lines).countP
        (fun d => decide (d.routeName = r)) =
      (lines.filter (fun l => decide (yamlRouteName l = some r))).length := by
  intro i lines
  induction lines generalizing i with
  | nil => rfl
  | cons l ls ih =>
    rw [yamlRouteDiagsFrom, List.countP_append, yaml_line_count_miss hc hd i l,
      ih (i + 1)]
    by_cases hy : yamlRouteName l = some r
    · simp [hy]
      omega
    · simp [hy]

/-- Claim C6: an identifier present in the index never yields a
`Route not found` diagnostic (the allowlist is irrelevant); an absent
identifier matching a known-dynamic allowlist prefix yields none either;
and an identifier with neither an index entry nor an allowlist prefix
yields exactly one diagnostic per textual occurrence — per extracted
route call in the PHP provider, per matching route-key line in the YAML
provider. -/
theorem C6_validation (routeNames : List String) (lines : List String)
    (r : String) :
    (routeNames.contains r = true →
      ((phpRouteDiagnostics routeNames lines).countP
        (fun d => decide (d.routeName = r)) = 0 ∧
       (validateRoutesYaml routeNames lines).countP
        (fun d => decide (d.routeName = r)) = 0)) ∧
    (isDynamicRoutePattern r = true →
      ((phpRouteDiagnostics routeNames lines).countP
        (fun d => decide (d.routeName = r)) = 0 ∧
       (validateRoutesYaml routeNames lines).countP
        (fun d => decide (d.routeName = r)) = 0)) ∧
    (routeNames.contains r = false → isDynamicRoutePattern r = false →
      ((phpRouteDiagnostics routeNames lines).countP
        (fun d => decide (d.routeName = r)) =
        (lines.map (fun l => ((extractRouteCalls l).filter
          (fun m => decide (m.name = r))).length)).sum ∧
       (validateRoutesYaml routeNames lines).countP
        (fun d => decide (d.routeName = r)) =
        (lines.filter (fun l => decide (yamlRouteName l = some r))).length)) := by
  unfold phpRouteDiagnostics validateRoutesYaml
  refine ⟨fun hc => ⟨?_, ?_⟩, fun hd => ⟨?_, ?_⟩, fun hc hd => ⟨?_, ?_⟩⟩
  · exact phpFrom_count_zero (fun i l => php_line_count_mem hc i l) 0 lines
  · exact yamlFrom_count_zero (fun i l => yaml_line_count_mem hc i l) 0 lines
  · exact phpFrom_count_zero (fun i l => php_line_count_dyn hd i l) 0 lines
  · exact yamlFrom_count_zero (fun i l => yaml_line_count_dyn hd i l) 0 lines
  · exact phpFrom_count_miss hc hd 0 lines
  · exact yamlFrom_count_miss hc hd 0 lines

/-- Claim C6, witness: the theorem applied to the index
`["user.login"]`, the two-line document containing one PHP redirect call
and one YAML `route:` line naming `user.page`, and identifier
`user.page` (absent from the index, no allowlist prefix). -/
theorem C6_witness :
    ((["user.login"] : List String).contains "user.page" = false ∧
      isDynamicRoutePattern "user.page" = false) ∧
    (phpRouteDiagnostics ["user.login"]
        ["$this->redirect('user.page');", "route: user.page"]).countP
      (fun d => decide (d.routeName = "user.page")) =
      ((["$this->redirect('user.page');", "route: user.page"] :
          List String).map (fun l =>
        ((extractRouteCalls l).filter
          (fun m => decide (m.name = "user.page"))).length)).sum ∧
    (validateRoutesYaml ["user.login"]
        ["$this->redirect('user.page');", "route: user.page"]).countP
      (fun d => decide (d.routeName = "user.page")) =
      ((["$this->redirect('user.page');", "route: user.page"] :
          List String).filter
        (fun l => decide (yamlRouteName l = some "user.page"))).length := by
  have h := (C6_validation ["user.login"]
    ["$this->redirect('user.page');", "route: user.page"] "user.page").2.2
    (by decide) (by decide)
  exact ⟨⟨by decide, by decide⟩, h.1, h.2⟩

end DrupalLsp
